import Mathlib

/-!
Verification of the CLI-driven backend orchestration layer of the
multi-agent chat orchestrator (debate coordinator, pane parsers,
session-adapter polling, routing primitives).

The Python source is shallowly embedded: every definition below mirrors a
function of the repository (file and symbol named in its doc comment).
Strings are processed as `List Char`, the way the Python iterates over
`str` values; the handful of `re` patterns the code uses are emulated by
dedicated scanners whose semantics (leftmost match, alternation order,
greedy / lazy runs) follow Python's `re` on exactly those patterns.
-/

namespace VibeSpec

/-! ## Character and string primitives -/

/-- Python whitespace class for `str.strip` and `\s` (ASCII subset used by the panes). -/
def isWs (c : Char) : Bool :=
  c == ' ' || c == '\t' || c == '\n' || c == '\r' || c == '\x0b' || c == '\x0c'

/-- Python `str.lstrip()`. -/
def lstripL (l : List Char) : List Char := l.dropWhile isWs

/-- Python `str.rstrip()`, written structurally. -/
def rstripL : List Char → List Char
  | [] => []
  | c :: t =>
    match rstripL t with
    | [] => if isWs c then [] else [c]
    | r => c :: r

/-- Python `str.strip()`. -/
def stripL (l : List Char) : List Char := rstripL (lstripL l)

/-- Python `str.rstrip(chars)` for an explicit character set. -/
def rstripSetL (cs : List Char) : List Char → List Char
  | [] => []
  | c :: t =>
    match rstripSetL cs t with
    | [] => if cs.contains c then [] else [c]
    | r => c :: r

/-- lower-case image of a char list (Python `str.lower()` on the ASCII letters used). -/
def lowerL (l : List Char) : List Char := l.map Char.toLower

/-- case-insensitive prefix test. -/
def startsCI (p l : List Char) : Bool := (lowerL p).isPrefixOf (lowerL l)

/-- substring containment, Python `pat in hay`. -/
def hasSub (p : List Char) : List Char → Bool
  | [] => p.isEmpty
  | l@(_ :: t) => p.isPrefixOf l || hasSub p t

/-- case-insensitive substring containment. -/
def hasSubCI (p l : List Char) : Bool := hasSub (lowerL p) (lowerL l)

/-- `String`-level containment, Python `pat in hay`. -/
def sContains (hay pat : String) : Bool := hasSub pat.toList hay.toList

/-- Python `s.split("\n")`. -/
def splitLinesL : List Char → List (List Char)
  | [] => [[]]
  | c :: t =>
    match splitLinesL t, c == '\n' with
    | r, true => [] :: r
    | [], false => [[c]]
    | h :: r, false => (c :: h) :: r

/-- Python `"\n".join` and friends. -/
def joinStr (sep : String) : List String → String
  | [] => ""
  | [x] => x
  | x :: xs => x ++ sep ++ joinStr sep xs

/-- Python `s.split("\n")` at `String` level. -/
def splitLinesS (s : String) : List String := (splitLinesL s.toList).map String.mk

/-- kernel-evaluable Python `str.upper()` (ASCII). -/
def toUpperS (s : String) : String := String.mk (s.toList.map Char.toUpper)

/-- decimal value of a digit run. -/
def digitsVal (l : List Char) : Nat := l.foldl (fun acc c => acc * 10 + (c.toNat - 48)) 0

/-- split a maximal leading digit run from the rest. -/
def takeDigits (l : List Char) : List Char × List Char :=
  (l.takeWhile Char.isDigit, l.dropWhile Char.isDigit)

/-! ## Regular-expression emulations

Each scanner below emulates one concrete pattern of the source, with
Python `re` semantics on that pattern: positions are tried left to right,
alternatives in order, `\d+` and `\s+` as maximal runs (backtracking never
changes the result on these patterns, as the runs are over disjoint
character classes). -/

/-- leftmost match of `(?:lit₁|lit₂|…)\s*(\d+)` (case-insensitive), returning the number. -/
def scanLitNum (lits : List (List Char)) : List Char → Option Nat
  | [] => none
  | l@(_ :: t) =>
    match lits.findSome? (fun p => if startsCI p l then some p.length else none) with
    | some n =>
      let rest2 := (l.drop n).dropWhile isWs
      let ds := rest2.takeWhile Char.isDigit
      if ds.isEmpty then scanLitNum lits t else some (digitsVal ds)
    | none => scanLitNum lits t

/-- leftmost match of a case-sensitive literal followed directly by `(\d+)`. -/
def scanExact (pat : List Char) : List Char → Option Nat
  | [] => none
  | l@(_ :: t) =>
    if pat.isPrefixOf l then
      let ds := (l.drop pat.length).takeWhile Char.isDigit
      if ds.isEmpty then scanExact pat t else some (digitsVal ds)
    else scanExact pat t

/-- index of the leftmost occurrence of a literal substring. -/
def findSubIdx (pat : List Char) : List Char → Option Nat
  | [] => if pat.isEmpty then some 0 else none
  | l@(_ :: t) =>
    if pat.isPrefixOf l then some 0 else (findSubIdx pat t).map (· + 1)

/-- the `__SHELL_OUTPUT__:` marker literal injected by the Gemini session. -/
def shellMarkerLit : List Char := "__SHELL_OUTPUT__:".toList

/-- lazy capture of `(.+?)(?=Command exited|$)` (DOTALL): the shortest non-empty
prefix whose remainder starts with the stop literal, is empty, or is a final newline. -/
def captureLazy (stopPat : List Char) : List Char → Option (List Char)
  | [] => none
  | c :: rest =>
    if stopPat.isPrefixOf rest || rest.isEmpty || rest == ['\n'] then some [c]
    else (captureLazy stopPat rest).map (c :: ·)

/-- `re.search(r"__SHELL_OUTPUT__:(.+?)(?=Command exited|$)", s, re.DOTALL)`, group 1. -/
def markerCapture (s : List Char) : Option (List Char) :=
  match findSubIdx shellMarkerLit s with
  | none => none
  | some i => captureLazy "Command exited".toList (s.drop (i + shellMarkerLit.length))

/-- `re.sub(r"__SHELL_OUTPUT__:.*", "", s, flags=re.DOTALL)`: cut from the first marker on. -/
def removeFromMarker (s : List Char) : List Char :=
  match findSubIdx shellMarkerLit s with
  | none => s
  | some i => s.take i

/-- fuel-driven core of `removeLitNum`; the fuel only serves structural
recursion and is always called with at least the input length. -/
def removeLitNumF (lits : List (List Char)) : Nat → List Char → List Char
  | 0, l => l
  | _ + 1, [] => []
  | fuel + 1, l@(c :: t) =>
    match lits.findSome? (fun p => if startsCI p l then some p.length else none) with
    | some n =>
      let rest := l.drop n
      let ws := rest.takeWhile isWs
      let rest2 := rest.drop ws.length
      let ds := rest2.takeWhile Char.isDigit
      if ds.isEmpty then c :: removeLitNumF lits fuel t
      else removeLitNumF lits fuel (t.drop (n + ws.length + ds.length - 1))
    | none => c :: removeLitNumF lits fuel t

/-- emulation of `re.sub` deleting every non-overlapping leftmost occurrence of
one of the given literals followed by optional whitespace and digits
(the source patterns have the shape `lit\s*\d+`, IGNORECASE). -/
def removeLitNum (lits : List (List Char)) (l : List Char) : List Char :=
  removeLitNumF lits l.length l

/-- `re.sub(r"\s+", " ", s)`: collapse each maximal whitespace run to one space. -/
def collapseWs : List Char → List Char
  | [] => []
  | [c] => if isWs c then [' '] else [c]
  | a :: b :: t =>
    if isWs a && isWs b then collapseWs (b :: t)
    else if isWs a then ' ' :: collapseWs (b :: t)
    else a :: collapseWs (b :: t)

/-- no two adjacent whitespace characters. -/
def noDoubleWs : List Char → Bool
  | [] => true
  | [_] => true
  | a :: b :: t => !(isWs a && isWs b) && noDoubleWs (b :: t)

/-! ## Routing primitives (src/vibe/debate/routing.py) -/

/-- the alternation `(cc|claude|g|gemini)` of `TAG_PATTERN`, in source order. -/
def routingTagNames : List (List Char) :=
  ["cc".toList, "claude".toList, "g".toList, "gemini".toList]

/-- match of `@(cc|claude|g|gemini)(?=\s|$)` (case-insensitive) at the head of `l`:
returns the lowered group and the rest after the name (the lookahead is not consumed). -/
def tagHere (l : List Char) : Option (List Char × List Char) :=
  match l with
  | [] => none
  | c :: t =>
    if c == '@' then
      routingTagNames.findSome? (fun nm =>
        if startsCI nm t then
          let rest := t.drop nm.length
          if rest.isEmpty || isWs (rest.headD ' ') then
            some (lowerL (t.take nm.length), rest)
          else none
        else none)
    else none

/-- `TAG_PATTERN.search` scanning the `(?:\s)@…` starts, positions left to right. -/
def tagScanAux : List Char → Option (List Char)
  | [] => none
  | c :: t =>
    if isWs c then
      match tagHere t with
      | some (g, _) => some g
      | none => tagScanAux t
    else tagScanAux t

/-- `TAG_PATTERN.search(text)`: the `^` alternative at position 0, then `\s` starts. -/
def tagScan (l : List Char) : Option (List Char) :=
  match tagHere l with
  | some (g, _) => some g
  | none => tagScanAux l

/-- fuel-driven core of `tagRemoveAux` (fuel is always at least the input length). -/
def tagRemoveAuxF : Nat → List Char → List Char
  | 0, l => l
  | _ + 1, [] => []
  | fuel + 1, c :: t =>
    if isWs c then
      match tagHere t with
      | some (_, rest) => tagRemoveAuxF fuel rest
      | none => c :: tagRemoveAuxF fuel t
    else c :: tagRemoveAuxF fuel t

/-- `TAG_PATTERN.sub("", text)` continuation after position 0: each position's
char may be the `\\s` of a match; matched spans (ws + `@` + name) are dropped. -/
def tagRemoveAux (l : List Char) : List Char := tagRemoveAuxF l.length l

/-- `TAG_PATTERN.sub("", text)`: the `^` alternative applies only at position 0. -/
def tagRemove (l : List Char) : List Char :=
  match tagHere l with
  | some (_, rest) => tagRemoveAux rest
  | none => tagRemoveAux l

/-- `ROUTING_TAGS` lookup on the lowered group. -/
def routingMap (g : List Char) : String :=
  if g == "cc".toList || g == "claude".toList then "claude" else "gemini"

/-- src/vibe/debate/routing.py `parse_routing_tag`. -/
def parse_routing_tag (text : String) : Option String × String :=
  if text == "" then (none, "")
  else
    let tl := stripL text.toList
    match tagScan tl with
    | none => (none, String.mk tl)
    | some g =>
      let target := routingMap g
      let cleaned := stripL (collapseWs (stripL (tagRemove tl)))
      (some target, String.mk cleaned)

/-! ## Lemmas: whitespace collapsing -/

theorem noDoubleWs_tail (c : Char) (t : List Char)
    (h : noDoubleWs (c :: t) = true) : noDoubleWs t = true := by
  cases t with
  | nil => simp [noDoubleWs]
  | cons b t2 => simp only [noDoubleWs, Bool.and_eq_true] at h; exact h.2

theorem noDoubleWs_cons (c : Char) (X : List Char)
    (h1 : noDoubleWs X = true)
    (h2 : ∀ y, X.head? = some y → (isWs c && isWs y) = false) :
    noDoubleWs (c :: X) = true := by
  cases X with
  | nil => simp [noDoubleWs]
  | cons y ys =>
    simp only [noDoubleWs, Bool.and_eq_true, Bool.not_eq_true']
    exact ⟨h2 y rfl, h1⟩

theorem collapseWs_head_not_ws (b : Char) (t : List Char) (hb : isWs b = false) :
    (collapseWs (b :: t)).head? = some b := by
  cases t <;> simp [collapseWs, hb]

theorem noDoubleWs_collapseWs (l : List Char) : noDoubleWs (collapseWs l) = true := by
  induction l with
  | nil => simp [collapseWs, noDoubleWs]
  | cons a t ih =>
    cases t with
    | nil =>
      cases ha : isWs a <;> simp [collapseWs, ha, noDoubleWs]
    | cons b t2 =>
      cases ha : isWs a <;> cases hb : isWs b
      · simp only [collapseWs, ha, hb, Bool.and_self, Bool.false_eq_true, if_false]
        refine noDoubleWs_cons a _ ih ?_
        intro y _
        simp [ha]
      · simp only [collapseWs, ha, hb, Bool.false_and, Bool.false_eq_true, if_false]
        refine noDoubleWs_cons a _ ih ?_
        intro y _
        simp [ha]
      · simp only [collapseWs, ha, hb, Bool.true_and, Bool.false_eq_true, if_false,
          if_true]
        refine noDoubleWs_cons ' ' _ ih ?_
        intro y hy
        rw [collapseWs_head_not_ws b t2 hb] at hy
        have : y = b := by simpa using hy.symm
        subst this
        simp [hb]
      · simpa [collapseWs, ha, hb] using ih

theorem noDoubleWs_dropWhile (p : Char → Bool) (l : List Char)
    (h : noDoubleWs l = true) : noDoubleWs (l.dropWhile p) = true := by
  induction l with
  | nil => simpa using h
  | cons c t ih =>
    rw [List.dropWhile]
    cases hp : p c
    · simpa using h
    · simp only [if_true]
      exact ih (noDoubleWs_tail c t h)

theorem rstripL_head (l : List Char) (h : rstripL l ≠ []) :
    (rstripL l).head? = l.head? := by
  cases l with
  | nil => simp [rstripL] at h
  | cons c t =>
    rw [rstripL]
    rcases hr : rstripL t with _ | ⟨y, ys⟩
    · rw [rstripL, hr] at h
      cases hws : isWs c
      · simp [hws]
      · simp [hws] at h
    · simp

theorem noDoubleWs_rstripL (l : List Char) (h : noDoubleWs l = true) :
    noDoubleWs (rstripL l) = true := by
  induction l with
  | nil => simpa using h
  | cons c t ih =>
    have ht : noDoubleWs (rstripL t) = true := ih (noDoubleWs_tail c t h)
    rw [rstripL]
    rcases hr : rstripL t with _ | ⟨y, ys⟩
    · cases hws : isWs c <;> simp [noDoubleWs]
    · rw [hr] at ht
      refine noDoubleWs_cons c (y :: ys) ht ?_
      intro z hz
      have h1 : y = z := by simpa using hz
      have hne : rstripL t ≠ [] := by rw [hr]; simp
      have hh := rstripL_head t hne
      rw [hr] at hh
      cases t with
      | nil => simp [rstripL] at hr
      | cons w t2 =>
        have h2 : y = w := by simpa using hh
        rw [← h1, h2]
        simp only [noDoubleWs, Bool.and_eq_true, Bool.not_eq_true'] at h
        exact h.1

theorem noDoubleWs_stripL (l : List Char) (h : noDoubleWs l = true) :
    noDoubleWs (stripL l) = true :=
  noDoubleWs_rstripL _ (noDoubleWs_dropWhile _ _ h)

/-! ## Claim C7: routing-tag parsing -/

/-- Claim C7 (amended). `parse_routing_tag` maps `"@cc  hello"` to
(claude, `"hello"`), `"email@foo.com"` to (no target, unchanged), and
`"do @g now"` to (gemini, `"do now"`); whenever a routing tag is found, the
cleaned message contains no run of two adjacent whitespace characters.
(When no tag is found the input is returned stripped but not collapsed; see
the counterexample.) -/
theorem routing_tag_examples_and_collapse :
    parse_routing_tag "@cc  hello" = (some "claude", "hello") ∧
    parse_routing_tag "email@foo.com" = (none, "email@foo.com") ∧
    parse_routing_tag "do @g now" = (some "gemini", "do now") ∧
    ∀ text tgt c, parse_routing_tag text = (some tgt, c) →
      noDoubleWs c.toList = true := by
  refine ⟨by decide, by decide, by decide, ?_⟩
  intro text tgt c h
  simp only [parse_routing_tag] at h
  split at h
  · cases h
  · split at h
    · cases h
    · cases h
      exact noDoubleWs_stripL _ (noDoubleWs_collapseWs _)

/-- Claim C7 counterexample: on a tagless message with an internal double
space, `parse_routing_tag` returns the message uncollapsed, refuting
"in every cleaned message, runs of internal whitespace collapse". -/
theorem routing_tag_no_collapse_counterexample :
    parse_routing_tag "x  y" = (none, "x  y") ∧
    noDoubleWs "x  y".toList = false :=
  ⟨by decide, by decide⟩

/-- Claim C7 witness: the collapse guarantee applied at a concrete tagged input. -/
theorem routing_tag_collapse_witness :
    parse_routing_tag "do @g now" = (some "gemini", "do now") ∧
    noDoubleWs "do now".toList = true :=
  ⟨by decide,
   routing_tag_examples_and_collapse.2.2.2 "do @g now" "gemini" "do now" (by decide)⟩

/-! ## Session adapter poll decisions

One poll iteration of the adapter loops, as a pure decision over the captured
pane text: Claude `ask`/`wait_response` (src/vibe/cli_backends/claude/session.py)
and Gemini `ask`/`wait_response` (src/vibe/cli_backends/gemini/session.py).
Each iteration either detects a confirmation, detects completion, or keeps
polling. -/

inductive PollDecision
  | confirm
  | complete
  | again
deriving Repr, DecidableEq

/-- Claude confirmation check: `"Do you want to" in output and "1. Yes" in output`. -/
def claude_has_confirmation (out : String) : Bool :=
  sContains out "Do you want to" && sContains out "1. Yes"

/-- Claude spinner check: `"✻" in output`. -/
def claude_has_spinner (out : String) : Bool := sContains out "✻"

/-- Claude ready check: a line equal to `">"` or starting `"> "` among the
stripped last 5 lines of the stripped capture. -/
def claude_prompt_ready (out : String) : Bool :=
  let last5 := ((splitLinesL (stripL out.toList)).map stripL).reverse.take 5
  last5.any (fun l => l == ">".toList || ("> ".toList).isPrefixOf l)

/-- one poll iteration of Claude `ask` / `wait_response`. -/
def claudePollStep (out : String) : PollDecision :=
  if claude_has_confirmation out then .confirm
  else if claude_prompt_ready out && !claude_has_spinner out then .complete
  else .again

/-- the Gemini braille spinner glyphs. -/
def geminiSpinners : List String :=
  ["⠋", "⠙", "⠹", "⠸", "⠼", "⠴", "⠦", "⠧", "⠇", "⠏"]

/-- Gemini spinner check: `any(s in output for s in spinners)`. -/
def gemini_has_spinner (out : String) : Bool :=
  geminiSpinners.any (fun s => sContains out s)

/-- Gemini confirmation check. -/
def gemini_has_confirmation (out : String) : Bool :=
  sContains out "Waiting for user confirmation" || sContains out "Apply this change?"

/-- Gemini ready-prompt check: `"Type your message" in output` (whole capture). -/
def gemini_ready (out : String) : Bool := sContains out "Type your message"

/-- Gemini cancel-hint check: `"esc to cancel" in output`. -/
def gemini_esc (out : String) : Bool := sContains out "esc to cancel"

/-- `output.count("✦") + output.count("✧")`. -/
def countResponses (out : String) : Nat :=
  out.toList.countP (fun c => c == '✦') + out.toList.countP (fun c => c == '✧')

/-- one poll iteration of Gemini `ask`. -/
def geminiAskStep (responses_before : Nat) (out : String) : PollDecision :=
  if gemini_has_confirmation out then .confirm
  else if decide (countResponses out > responses_before) && gemini_ready out then
    (if !gemini_has_spinner out && !gemini_esc out then .complete else .again)
  else .again

/-- one poll iteration of Gemini `wait_response`. -/
def geminiWaitStep (out : String) : PollDecision :=
  if gemini_has_confirmation out then .confirm
  else if gemini_ready out then
    (if !gemini_has_spinner out && !gemini_esc out then .complete else .again)
  else .again

/-- the polling loop: first non-`again` decision over the successive captures,
with the index at which the loop stopped (`none` models the timeout). -/
def pollFirst (step : String → PollDecision) : List String → Option (Nat × PollDecision)
  | [] => none
  | out :: rest =>
    match step out with
    | .again => (pollFirst step rest).map (fun p => (p.1 + 1, p.2))
    | dec => some (0, dec)

/-! ## Claim C9: completion requires ready prompt and spinner absence -/

theorem claudePollStep_complete (out : String) (h : claudePollStep out = .complete) :
    claude_prompt_ready out = true ∧ claude_has_spinner out = false := by
  unfold claudePollStep at h
  split at h
  · exact absurd h (by decide)
  · split at h
    · next hc =>
      have h2 := (Bool.and_eq_true _ _).mp hc
      exact ⟨h2.1, by simpa using h2.2⟩
    · exact absurd h (by decide)

theorem geminiAskStep_complete (rb : Nat) (out : String)
    (h : geminiAskStep rb out = .complete) :
    gemini_ready out = true ∧ gemini_has_spinner out = false := by
  unfold geminiAskStep at h
  split at h
  · exact absurd h (by decide)
  · split at h
    · next hc =>
      have h2 := (Bool.and_eq_true _ _).mp hc
      split at h
      · next hs =>
        have h3 := (Bool.and_eq_true _ _).mp hs
        exact ⟨h2.2, by simpa using h3.1⟩
      · exact absurd h (by decide)
    · exact absurd h (by decide)

theorem geminiWaitStep_complete (out : String) (h : geminiWaitStep out = .complete) :
    gemini_ready out = true ∧ gemini_has_spinner out = false := by
  unfold geminiWaitStep at h
  split at h
  · exact absurd h (by decide)
  · split at h
    · next hr =>
      split at h
      · next hs =>
        have h3 := (Bool.and_eq_true _ _).mp hs
        exact ⟨hr, by simpa using h3.1⟩
      · exact absurd h (by decide)
    · exact absurd h (by decide)

theorem pollFirst_spec (step : String → PollDecision) (snaps : List String)
    (k : Nat) (d : PollDecision) (h : pollFirst step snaps = some (k, d)) :
    ∃ hk : k < snaps.length, step (snaps.get ⟨k, hk⟩) = d ∧ d ≠ .again := by
  induction snaps generalizing k with
  | nil => simp [pollFirst] at h
  | cons out rest ih =>
    rw [pollFirst] at h
    cases hs : step out with
    | again =>
      rw [hs] at h
      obtain ⟨p, hp, hpk⟩ := Option.map_eq_some'.mp h
      obtain ⟨k2, d2⟩ := p
      simp only [Prod.mk.injEq] at hpk
      obtain ⟨hk2, hd2⟩ := hpk
      subst hd2
      subst hk2
      obtain ⟨hlt, hstep, hne⟩ := ih k2 hp
      refine ⟨by simp only [List.length_cons]; omega, ?_, hne⟩
      simpa using hstep
    | confirm =>
      rw [hs] at h
      injection h with h1
      injection h1 with hk hd
      subst hk
      subst hd
      exact ⟨by simp, by simpa using hs, by decide⟩
    | complete =>
      rw [hs] at h
      injection h with h1
      injection h1 with hk hd
      subst hk
      subst hd
      exact ⟨by simp, by simpa using hs, by decide⟩

/-- Claim C9 (amended). Each adapter poll iteration returns a completion only
when its own ready-prompt check holds AND no spinner glyph is visible; when
only one of the two conditions holds the iteration never completes. Claude
checks the prompt in the stripped last 5 lines; Gemini checks the ready
literal anywhere in the capture (see the counterexample). The loop returns a
completion only from such an iteration. -/
theorem poll_completion_requires_ready_and_no_spinner :
    (∀ out, claudePollStep out = .complete →
        claude_prompt_ready out = true ∧ claude_has_spinner out = false) ∧
    (∀ out, claude_has_spinner out = true → claudePollStep out ≠ .complete) ∧
    (∀ out, claude_prompt_ready out = false → claudePollStep out ≠ .complete) ∧
    (∀ rb out, geminiAskStep rb out = .complete →
        gemini_ready out = true ∧ gemini_has_spinner out = false) ∧
    (∀ rb out, gemini_has_spinner out = true → geminiAskStep rb out ≠ .complete) ∧
    (∀ rb out, gemini_ready out = false → geminiAskStep rb out ≠ .complete) ∧
    (∀ out, geminiWaitStep out = .complete →
        gemini_ready out = true ∧ gemini_has_spinner out = false) ∧
    (∀ out, gemini_has_spinner out = true → geminiWaitStep out ≠ .complete) ∧
    (∀ out, gemini_ready out = false → geminiWaitStep out ≠ .complete) ∧
    (∀ step snaps k d, pollFirst step snaps = some (k, d) →
        ∃ hk : k < snaps.length, step (snaps.get ⟨k, hk⟩) = d ∧ d ≠ .again) := by
  refine ⟨claudePollStep_complete, ?_, ?_, geminiAskStep_complete, ?_, ?_,
    geminiWaitStep_complete, ?_, ?_, pollFirst_spec⟩
  · intro out hs heq
    have := claudePollStep_complete out heq
    simp_all
  · intro out hr heq
    have := claudePollStep_complete out heq
    simp_all
  · intro rb out hs heq
    have := geminiAskStep_complete rb out heq
    simp_all
  · intro rb out hr heq
    have := geminiAskStep_complete rb out heq
    simp_all
  · intro out hs heq
    have := geminiWaitStep_complete out heq
    simp_all
  · intro out hr heq
    have := geminiWaitStep_complete out heq
    simp_all

/-- a pane where the ready literal occurs only 40 lines above the bottom. -/
def geminiFarReadySnapshot : String :=
  joinStr "\n" ("Type your message" :: List.replicate 40 "x")

/-- Claim C9 counterexample: the Gemini `wait_response` iteration completes on
a capture whose ready literal is only 40 lines above the bottom, refuting
"the ready prompt is present in the last few pane lines". -/
theorem poll_ready_far_from_bottom_counterexample :
    geminiWaitStep geminiFarReadySnapshot = .complete ∧
    ((splitLinesS geminiFarReadySnapshot).reverse.take 40).all
      (fun l => !sContains l "Type your message") = true :=
  ⟨by decide, by decide⟩

/-- Claim C9 witness: the completion implications applied at concrete captures. -/
theorem poll_completion_witness :
    claudePollStep "hello\n>" = .complete ∧
    (claude_prompt_ready "hello\n>" = true ∧ claude_has_spinner "hello\n>" = false) ∧
    geminiWaitStep "done\nType your message" = .complete ∧
    (gemini_ready "done\nType your message" = true ∧
      gemini_has_spinner "done\nType your message" = false) :=
  ⟨by decide,
   poll_completion_requires_ready_and_no_spinner.1 "hello\n>" (by decide),
   by decide,
   (poll_completion_requires_ready_and_no_spinner.2.2.2.2.2.2.1)
     "done\nType your message" (by decide)⟩

/-! ## Claude session: first-tool-result extraction
(src/vibe/cli_backends/claude/session.py `_extract_first_tool_result`; the
test suite exercises the same behaviour under the name `parse_tool_result`). -/

/-- `re.match(r"^●\s*Bash\(", stripped)` as a Bool. -/
def isBashToolLine (s : List Char) : Bool :=
  match s with
  | c :: t => c == '●' && ("Bash(".toList).isPrefixOf (t.dropWhile isWs)
  | [] => false

/-- `re.sub(r"^⎿\s*", "", stripped)`. -/
def dropCorner (s : List Char) : List Char :=
  match s with
  | c :: t => if c == '⎿' then t.dropWhile isWs else s
  | [] => s

/-- the literal of `re.search(r"Error: Exit code (\d+)", stripped)`. -/
def errorExitLit : List Char := "Error: Exit code ".toList

/-- the loop of `_extract_first_tool_result`: state is
(exit_code, shell_output_lines, in_tool_result, found_first_tool). -/
def claudeFirstToolAux : List (List Char) → Option Nat → List (List Char) → Bool → Bool →
    Option Nat × List (List Char)
  | [], ec, outs, _, _ => (ec, outs)
  | ln :: rest, ec, outs, inRes, found =>
    let s := stripL ln
    if isBashToolLine s then
      if found then (ec, outs)
      else claudeFirstToolAux rest ec outs inRes true
    else if found && (s.head? == some '⎿') then
      match scanExact errorExitLit s with
      | some n => claudeFirstToolAux rest (some n) outs true found
      | none =>
        let inline := dropCorner s
        if inline.isEmpty then claudeFirstToolAux rest ec outs true found
        else claudeFirstToolAux rest ec (outs ++ [inline]) true found
    else if inRes then
      if s.isEmpty || (s.head? == some '●') || (s.head? == some '>') ||
          (s.head? == some '─') then (ec, outs)
      else if ("     ".toList).isPrefixOf ln then
        claudeFirstToolAux rest ec (outs ++ [s]) inRes found
      else claudeFirstToolAux rest ec outs inRes found
    else claudeFirstToolAux rest ec outs inRes found

/-- src/vibe/cli_backends/claude/session.py `_extract_first_tool_result`:
extract exit_code and output from the first completed Bash tool in the buffer. -/
def claude_extract_first_tool_result (raw : String) : Option Int × Option String :=
  let lines := splitLinesL (stripL raw.toList)
  let r := claudeFirstToolAux lines none [] false false
  (r.1.map Int.ofNat,
   if r.2.isEmpty then none else some (joinStr "\n" (r.2.map String.mk)))

/-- Modelled from the spec: `GeminiToolParser.parse_tool_result` is called by
the Gemini session's `wait_response` and exercised by the repository's tests,
but its definition is not under src/. Spec 4.2: scan for either
`Command exited with code: N` or `Error: Exit code N` (case-insensitive) and
take the first match within the tool's region; the shell output is the
`__SHELL_OUTPUT__:` marker block the session injects, stripped. -/
def gemini_parse_tool_result (content : String) : Option Int × Option String :=
  ((scanLitNum ["Command exited with code:".toList, "Error: Exit code".toList]
      content.toList).map Int.ofNat,
   (markerCapture content.toList).map (fun c => String.mk (stripL c)))

/-! ## Claim C3: first-tool-result extraction returns the first tool only -/

theorem claudeFirstToolAux_two_tools
    (l1 l2 l3 l4 : List Char) (rest : List (List Char)) (n : Nat)
    (h1 : isBashToolLine (stripL l1) = true)
    (h2 : ((stripL l2).head? == some '⎿') = true)
    (h2b : scanExact errorExitLit (stripL l2) = some n)
    (h3a : isBashToolLine (stripL l3) = false)
    (h3b : ((stripL l3).head? == some '⎿') = false)
    (h3c : (stripL l3).isEmpty = false)
    (h3d : ((stripL l3).head? == some '●') = false)
    (h3e : ((stripL l3).head? == some '>') = false)
    (h3f : ((stripL l3).head? == some '─') = false)
    (h3g : (("     ".toList).isPrefixOf l3) = true)
    (h4 : isBashToolLine (stripL l4) = true) :
    claudeFirstToolAux ([l1, l2, l3, l4] ++ rest) none [] false false
      = (some n, [stripL l3]) := by
  have h2a : isBashToolLine (stripL l2) = false := by
    rcases hs2 : stripL l2 with _ | ⟨c, t⟩
    · rw [hs2] at h2; simp at h2
    · rw [hs2] at h2
      have hc : c = '⎿' := by simpa using h2
      subst hc
      simp [isBashToolLine]
  simp only [List.cons_append, List.nil_append]
  rw [claudeFirstToolAux]
  simp only [h1, if_true]
  rw [claudeFirstToolAux]
  simp only [h2a, h2, h2b, Bool.false_eq_true, if_false, Bool.true_and, if_true]
  rw [claudeFirstToolAux]
  simp only [h3a, h3b, h3c, h3d, h3e, h3f, h3g, Bool.false_eq_true, if_false,
    Bool.true_and, Bool.or_self, Bool.or_false, Bool.false_or, if_true]
  rw [claudeFirstToolAux]
  simp only [h4, if_true]
  simp

/-- Claim C3. The tool-result extraction returns the first tool's exit code
and shell output only, on both variants: universally for the Claude session
extraction over any snapshot lines shaped (Bash header, `⎿ Error: Exit code n`
result, indented stderr, second Bash header, anything further) - the result is
the first tool's data, independent of the second tool and of all later lines -
and concretely for both entry points on two-sequential-tool panes. -/
theorem first_tool_result_only_first :
    (∀ (l1 l2 l3 l4 : List Char) (rest : List (List Char)) (n : Nat),
      isBashToolLine (stripL l1) = true →
      ((stripL l2).head? == some '⎿') = true →
      scanExact errorExitLit (stripL l2) = some n →
      isBashToolLine (stripL l3) = false →
      ((stripL l3).head? == some '⎿') = false →
      (stripL l3).isEmpty = false →
      ((stripL l3).head? == some '●') = false →
      ((stripL l3).head? == some '>') = false →
      ((stripL l3).head? == some '─') = false →
      (("     ".toList).isPrefixOf l3) = true →
      isBashToolLine (stripL l4) = true →
      claudeFirstToolAux ([l1, l2, l3, l4] ++ rest) none [] false false
        = (some n, [stripL l3])) ∧
    claude_extract_first_tool_result
        "● Bash(command=\"echo first\")\n  ⎿  first\n\n● Bash(command=\"echo second\")\n  ⎿  second\n"
      = (none, some "first") ∧
    claude_extract_first_tool_result
        "● Bash(cat nonexistent.txt)\n  ⎿  Error: Exit code 1\n     cat: nonexistent.txt: No such file or directory\n● Bash(echo x)\n  ⎿  second"
      = (some 1, some "cat: nonexistent.txt: No such file or directory") ∧
    gemini_parse_tool_result
        "__SHELL_OUTPUT__:first out\nCommand exited with code: 3\n__SHELL_OUTPUT__:second out\nCommand exited with code: 5"
      = (some 3, some "first out") :=
  ⟨fun l1 l2 l3 l4 rest n h1 h2 h2b h3a h3b h3c h3d h3e h3f h3g h4 =>
      claudeFirstToolAux_two_tools l1 l2 l3 l4 rest n h1 h2 h2b h3a h3b h3c h3d h3e h3f h3g h4,
   by decide, by decide, by decide⟩

/-- Claim C3 witness: the universal extraction statement applied at a concrete
two-tool snapshot. -/
theorem first_tool_result_only_first_witness :
    claudeFirstToolAux
        ["● Bash(ls)".toList, "  ⎿  Error: Exit code 2".toList,
         "     boom".toList, "● Bash(pwd)".toList, "  ⎿  later".toList]
        none [] false false
      = (some 2, ["boom".toList]) := by
  have h := first_tool_result_only_first.1
      "● Bash(ls)".toList "  ⎿  Error: Exit code 2".toList
      "     boom".toList "● Bash(pwd)".toList ["  ⎿  later".toList] 2
      (by decide) (by decide) (by decide) (by decide) (by decide) (by decide)
      (by decide) (by decide) (by decide) (by decide) (by decide)
  simpa using h

/-! ## Shared tool-invocation record
(src/vibe/cli/textual_ui/widgets/ai_tools.py `CLIToolInfo`; `GeminiToolInfo`
inherits the same fields). -/

structure CLIToolInfo where
  tool_type : String
  file_path : String
  description : String
  diff_lines : List (String × String)
  exit_code : Option Int
  shell_output : Option String
  is_new_file : Bool
deriving Repr, DecidableEq

/-- a freshly parsed record (exit_code/shell_output unset, is_new_file false),
as the parsers construct it. -/
def mkTool (tt fp desc : String) (dl : List (String × String)) : CLIToolInfo :=
  ⟨tt, fp, desc, dl, none, none, false⟩

/-! ## Pane-parser building blocks
(src/vibe/cli_backends/claude/parser.py and src/vibe/cli_backends/gemini/parser.py;
the two classes share their box / diff-line grammar). -/

/-- `LINE_ADDED = ^\s*(\d+)\s*\+\s*(.*)$`, group 2. -/
def lineAdded (l : List Char) : Option (List Char) :=
  let l1 := l.dropWhile isWs
  let ds := l1.takeWhile Char.isDigit
  if ds.isEmpty then none
  else
    match (l1.drop ds.length).dropWhile isWs with
    | c :: r3 => if c == '+' then some (r3.dropWhile isWs) else none
    | [] => none

/-- `LINE_REMOVED = ^\s*(\d+)\s*-\s*(.*)$`, group 2. -/
def lineRemoved (l : List Char) : Option (List Char) :=
  let l1 := l.dropWhile isWs
  let ds := l1.takeWhile Char.isDigit
  if ds.isEmpty then none
  else
    match (l1.drop ds.length).dropWhile isWs with
    | c :: r3 => if c == '-' then some (r3.dropWhile isWs) else none
    | [] => none

/-- `LINE_CONTEXT = ^\s*(\d+)\s+(.*)$`, group 2. -/
def lineContext (l : List Char) : Option (List Char) :=
  let l1 := l.dropWhile isWs
  let ds := l1.takeWhile Char.isDigit
  if ds.isEmpty then none
  else
    match l1.drop ds.length with
    | c :: r2 => if isWs c then some ((c :: r2).dropWhile isWs) else none
    | [] => none

/-- `BOX_START = ^╭─+╮?$`. -/
def boxStart (l : List Char) : Bool :=
  match l with
  | c :: t =>
    c == '╭' &&
      (let ds := t.takeWhile (fun x => x == '─')
       let r := t.drop ds.length
       !ds.isEmpty && (r.isEmpty || r == ['╮']))
  | [] => false

/-- `BOX_END = ^╰─+╯?$`. -/
def boxEnd (l : List Char) : Bool :=
  match l with
  | c :: t =>
    c == '╰' &&
      (let ds := t.takeWhile (fun x => x == '─')
       let r := t.drop ds.length
       !ds.isEmpty && (r.isEmpty || r == ['╯']))
  | [] => false

/-- `EDIT_SEPARATOR = ^╌+$` (Claude only). -/
def editSep (l : List Char) : Bool := !l.isEmpty && l.all (fun c => c == '╌')

/-- `BOX_LINE = ^│(.*)│$`, group 1. -/
def boxLineMatch (l : List Char) : Option (List Char) :=
  match l with
  | c :: t =>
    if c == '│' && (t.getLast? == some '│') then some t.dropLast else none
  | [] => none

/-- the parsers' `clean_path`: `re.sub(r"\s+←?\s*$", "", p).strip()`. -/
def clean_path (p : List Char) : List Char :=
  let r := rstripL p
  match r.getLast? with
  | some c =>
    if c == '←' then
      let r2 := r.dropLast
      match r2.getLast? with
      | some c2 => if isWs c2 then lstripL (rstripL r2) else lstripL r
      | none => lstripL r
    else lstripL r
  | none => []

/-- tail `\s+(.+?)\s*$` after a tool name: the captured group. When everything
after the name is whitespace of length at least 2, backtracking of `\s+`
yields a single whitespace character as the group. -/
def tailGroupWs (r : List Char) : Option (List Char) :=
  match r with
  | [] => none
  | c :: t =>
    if isWs c then
      let rest2 := r.dropWhile isWs
      if rest2.isEmpty then
        (if t.isEmpty then none else r.getLast?.map (fun x => [x]))
      else some (rstripL rest2)
    else none

/-- tail of `\)?\s*$`. -/
def tailParenOk (r : List Char) : Bool :=
  r.all isWs ||
    (match r with
     | c :: r2 => c == ')' && r2.all isWs
     | [] => false)

/-- lazy group of `\((.+?)\)?\s*$`: shortest non-empty prefix whose remainder
matches the optional close paren and trailing whitespace. -/
def lazyGroupParen : List Char → Option (List Char)
  | [] => none
  | c :: rest =>
    if tailParenOk rest then some [c]
    else (lazyGroupParen rest).map (c :: ·)

/-- the Claude `TOOL_HEADER` alternation, in source order. -/
def claudeToolNames : List (List Char) :=
  ["Write".toList, "Update".toList, "Bash".toList, "Read".toList, "Delete".toList]

/-- `ClaudeToolParser._normalize_tool_type`. -/
def claudeNormalizeToolType (raw : List Char) : String :=
  let n := lowerL raw
  if n == "write".toList then "write_file"
  else if n == "update".toList then "edit"
  else if n == "bash".toList then "shell"
  else if n == "read".toList then "read_file"
  else if n == "delete".toList then "delete_file"
  else String.mk n

/-- Claude `TOOL_HEADER = ^\s*●?\s*(Write|Update|Bash|Read|Delete)\s*\((.+?)\)?\s*$`
(IGNORECASE): returns (tool name, group 2). -/
def claudeToolHeader (l : List Char) : Option (List Char × List Char) :=
  let l1 := l.dropWhile isWs
  let l2 := match l1 with
    | c :: t => if c == '●' then t.dropWhile isWs else l1
    | [] => l1
  match claudeToolNames.findSome? (fun nm => if startsCI nm l2 then some nm else none) with
  | none => none
  | some nm =>
    let r := (l2.drop nm.length).dropWhile isWs
    match r with
    | c :: r3 => if c == '(' then (lazyGroupParen r3).map (fun g => (nm, g)) else none
    | [] => none

/-- the Gemini `TOOL_HEADER` alternation, in source order. -/
def geminiToolNames : List (List Char) :=
  ["WriteFile".toList, "Edit".toList, "ReadFile".toList, "Shell".toList, "DeleteFile".toList]

/-- `GeminiToolParser._normalize_tool_type` over `TOOL_TYPE_MAP`. -/
def geminiNormalizeToolType (raw : List Char) : String :=
  let n := lowerL raw
  if n == "writefile".toList then "write_file"
  else if n == "editfile".toList then "edit"
  else if n == "edit".toList then "edit"
  else if n == "readfile".toList then "read_file"
  else if n == "deletefile".toList then "delete_file"
  else if n == "shell".toList then "shell"
  else String.mk n

/-- Gemini `TOOL_HEADER = ^\s*[✓✗?⊷]?\s*(WriteFile|Edit|ReadFile|Shell|DeleteFile)\s+(.+?)\s*$`
(IGNORECASE): returns (tool name, group 2). -/
def geminiToolHeader (l : List Char) : Option (List Char × List Char) :=
  let l1 := l.dropWhile isWs
  let l2 := match l1 with
    | c :: t =>
      if c == '✓' || c == '✗' || c == '?' || c == '⊷' then t.dropWhile isWs else l1
    | [] => l1
  match geminiToolNames.findSome? (fun nm => if startsCI nm l2 then some nm else none) with
  | none => none
  | some nm => (tailGroupWs (l2.drop nm.length)).map (fun g => (nm, g))

/-- Claude `EDIT_FILE_HEADER = ^Edit file\s+(.+?)\s*$` (IGNORECASE), group 1. -/
def editFileHeader (l : List Char) : Option (List Char) :=
  if startsCI "Edit file".toList l then tailGroupWs (l.drop 9) else none

/-- Claude `FILE_ACTION_HEADER = ^(Overwrite|Create) file\s*$` (IGNORECASE). -/
def fileActionHeader (l : List Char) : Bool :=
  (startsCI "Overwrite file".toList l && (l.drop 14).all isWs) ||
  (startsCI "Create file".toList l && (l.drop 11).all isWs)

/-- Claude `BASH_COMMAND_HEADER = ^Bash command\s*$` (IGNORECASE). -/
def bashCommandHeader (l : List Char) : Bool :=
  startsCI "Bash command".toList l && (l.drop 12).all isWs

/-- `re.match(r"cat\s*>>?\s*([^\s<]+)", rest)`, group 1 (Claude shell heuristic). -/
def catMatch (r : List Char) : Option (List Char) :=
  if ("cat".toList).isPrefixOf r then
    let r1 := (r.drop 3).dropWhile isWs
    let tryGroup : List Char → Option (List Char) := fun x =>
      let g := (x.dropWhile isWs).takeWhile (fun ch => !isWs ch && ch != '<')
      if g.isEmpty then none else some g
    match r1 with
    | c :: r2 =>
      if c == '>' then
        match r2 with
        | c2 :: r3 =>
          if c2 == '>' then (tryGroup r3).orElse (fun _ => tryGroup r2)
          else tryGroup r2
        | [] => tryGroup r2
      else none
    | [] => none
  else none

/-- case-insensitive suffix test. -/
def endsCI (p l : List Char) : Bool := (lowerL p).isSuffixOf (lowerL l)

/-- the noise patterns of Claude `_extract_diff_from_lines` (raw fallback). -/
def isClaudeNoise (s : List Char) : Bool :=
  (startsCI "cat".toList s && (((s.drop 3).dropWhile isWs).head? == some '>')) ||
  (lowerL s == "eof".toList) ||
  (("<<".toList).isPrefixOf s &&
    (let r := (s.drop 2).dropWhile isWs
     let r2 := match r with
       | c :: t => if c == Char.ofNat 39 then t else r
       | [] => r
     startsCI "eof".toList r2)) ||
  (s.head? == some '⎿') ||
  (!s.isEmpty && s.all (fun c => c == '─')) ||
  (lowerL s == "bash command".toList) ||
  (startsCI "create ".toList s && endsCI " file".toList s && decide (12 ≤ s.length)) ||
  (startsCI "running".toList s)

/-- numbered-diff pass shared by both parsers (`_extract_diff_from_lines`
of the Gemini parser; first pass of the Claude one): line number plus
marker, context lines promoted to additions for new files. -/
def numberedDiffPass (is_new : Bool) : List (List Char) → List (String × String)
  | [] => []
  | ln :: rest =>
    let s := stripL ln
    let here : List (String × String) :=
      if s.isEmpty then []
      else
        match lineAdded s with
        | some g => [("+", String.mk g)]
        | none =>
          match lineRemoved s with
          | some g => [("-", String.mk g)]
          | none =>
            match lineContext s with
            | some g => [((if is_new then "+" else " "), String.mk g)]
            | none => []
    here ++ numberedDiffPass is_new rest

/-- Claude raw-content fallback of `_extract_diff_from_lines`: skip a
filename-looking first line, drop noise lines, keep the rest with the
marker decided by `is_new_file`. -/
def claudeRawFallback (is_new : Bool) (lines : List (List Char)) : List (String × String) :=
  let start_idx : Nat :=
    match lines with
    | [] => 0
    | first0 :: _ =>
      let first := stripL first0
      if (first.contains '.' && !(first.contains '/') && decide (first.length < 100)) ||
          first.head? == some '/' then 1 else 0
  (lines.drop start_idx).filterMap (fun ln =>
    let s := stripL ln
    if isClaudeNoise s then none
    else some ((if is_new then "+" else " "), String.mk (rstripL ln)))

/-- Claude `_extract_diff_from_lines`: numbered pass, else raw fallback. -/
def claude_extract_diff_from_lines (lines : List (List Char)) (is_new : Bool) :
    List (String × String) :=
  let pass1 := numberedDiffPass is_new lines
  if pass1.isEmpty then claudeRawFallback is_new lines else pass1

/-- `_parse_box` loop state: (tool name, file_path, description, diff lines). -/
def parseBoxAux (hdr : List Char → Option (List Char × List Char)) :
    List (List Char) → Option (List Char) → List Char → List Char →
    List (String × String) →
    Option (List Char) × List Char × List Char × List (String × String)
  | [], tt, fp, desc, dl => (tt, fp, desc, dl)
  | ln :: rest, tt, fp, desc, dl =>
    let s := stripL ln
    if s.isEmpty then parseBoxAux hdr rest tt fp desc dl
    else
      match hdr s with
      | some (nm, g) =>
        let r := stripL g
        if r.contains ':' then
          parseBoxAux hdr rest (some nm) (stripL (r.takeWhile (fun c => c != ':')))
            (stripL ((r.dropWhile (fun c => c != ':')).drop 1)) dl
        else parseBoxAux hdr rest (some nm) r desc dl
      | none =>
        match lineAdded s with
        | some g => parseBoxAux hdr rest tt fp desc (dl ++ [("+", String.mk g)])
        | none =>
          match lineRemoved s with
          | some g => parseBoxAux hdr rest tt fp desc (dl ++ [("-", String.mk g)])
          | none =>
            match lineContext s with
            | some g => parseBoxAux hdr rest tt fp desc (dl ++ [(" ", String.mk g)])
            | none => parseBoxAux hdr rest tt fp desc dl

/-- `_parse_box` (both variants, parameterized by header matcher / normalizer). -/
def parse_box (hdr : List Char → Option (List Char × List Char))
    (norm : List Char → String) (box_lines : List (List Char)) : Option CLIToolInfo :=
  if box_lines.isEmpty then none
  else
    let r := parseBoxAux hdr box_lines none [] [] []
    match r.1 with
    | some nm =>
      if r.2.1.isEmpty then none
      else some (mkTool (norm nm) (String.mk r.2.1) (String.mk r.2.2.1) r.2.2.2)
    | none => none

/-- Gemini `_extract_box`: returns (content lines, lines after the closing
border). Lines that no longer carry a `│` after preprocessing are dropped. -/
def gemini_extract_box : List (List Char) → List (List Char) × List (List Char)
  | [] => ([], [])
  | ln :: rest =>
    let line := stripL ln
    if boxEnd line then ([], rest)
    else
      let tailRes := gemini_extract_box rest
      match boxLineMatch line with
      | some content => (content :: tailRes.1, tailRes.2)
      | none =>
        if line.head? == some '│' then
          ((rstripL (rstripSetL ['│'] (line.drop 1))) :: tailRes.1, tailRes.2)
        else tailRes

/-- Claude `_extract_box`: like the Gemini one but a line without `│` is kept as-is. -/
def claude_extract_box : List (List Char) → List (List Char) × List (List Char)
  | [] => ([], [])
  | ln :: rest =>
    let line := stripL ln
    if boxEnd line then ([], rest)
    else
      let tailRes := claude_extract_box rest
      match boxLineMatch line with
      | some content => (content :: tailRes.1, tailRes.2)
      | none =>
        if line.head? == some '│' then
          ((rstripL (rstripSetL ['│'] (line.drop 1))) :: tailRes.1, tailRes.2)
        else (line :: tailRes.1, tailRes.2)

/-- Claude edit-separator collection: content until the next `╌…╌` line,
returning (content, lines after the closing separator). -/
def collectUntilSep : List (List Char) → List (List Char) × List (List Char)
  | [] => ([], [])
  | ln :: rest =>
    if editSep ln then ([], rest)
    else
      let r := collectUntilSep rest
      (ln :: r.1, r.2)

/-- the tmux-wrapper pre-processing shared by both `parse` methods: strip the
line, then strip one outer `│…│` layer when the interior looks wrapped. -/
def preprocessLine (raw : List Char) : List Char :=
  let s := stripL raw
  match s with
  | c :: t =>
    if c == '│' && (t.getLast? == some '│') && decide (2 < s.length) then
      let inner := t.dropLast
      match inner.head? with
      | some c2 => if c2 == ' ' || c2 == '╭' || c2 == '╰' then stripL inner else s
      | none => s
    else s
  | [] => s

/-- Claude `EXIT_CODE_PATTERN` literals (both trailer forms, IGNORECASE). -/
def claudeExitLits : List (List Char) :=
  ["Command exited with code:".toList, "Error: Exit code".toList]

/-- Gemini `EXIT_CODE_PATTERN` literal (only the Gemini trailer form). -/
def geminiExitLits : List (List Char) := ["Command exited with code:".toList]

/-- the `for line in lines: EXIT_CODE_PATTERN.search(line)` scan of `parse`. -/
def scanLinesForExit (lits : List (List Char)) : List (List Char) → Option Nat
  | [] => none
  | ln :: rest =>
    match scanLitNum lits ln with
    | some n => some n
    | none => scanLinesForExit lits rest

/-- `"\n".join` on char-list lines. -/
def joinNlL : List (List Char) → List Char
  | [] => []
  | [x] => x
  | x :: xs => x ++ '\n' :: joinNlL xs

/-! ## Gemini parser main loop and entry point
(src/vibe/cli_backends/gemini/parser.py `GeminiToolParser.parse`). -/

/-- the `while i < len(lines)` loop of Gemini `parse` (fuel is at least the
number of lines; every step consumes at least one line). State:
(pending header, tool_info, text lines accumulator); result:
(text_lines, tool_info, pending header left at loop end). -/
def geminiLoopF : Nat → List (List Char) → Option (String × List Char) →
    Option CLIToolInfo → List (List Char) →
    List (List Char) × Option CLIToolInfo × Option (String × List Char)
  | 0, _, pending, ti, acc => (acc, ti, pending)
  | _ + 1, [], pending, ti, acc => (acc, ti, pending)
  | fuel + 1, ln :: rest, pending, ti, acc =>
    match geminiToolHeader ln, boxLineMatch ln with
    | some (nm, g), none =>
      let r := stripL g
      let fp :=
        if startsCI "writing to ".toList r then clean_path (r.drop 11)
        else if r.contains ':' then clean_path (r.takeWhile (fun c => c != ':'))
        else clean_path r
      geminiLoopF fuel rest (some (geminiNormalizeToolType nm, fp)) ti acc
    | _, _ =>
      if boxStart ln then
        let br := gemini_extract_box rest
        let ti2 :=
          if !br.1.isEmpty then
            match parse_box geminiToolHeader geminiNormalizeToolType br.1 with
            | some p => some p
            | none =>
              match pending with
              | some (tt, fp) =>
                some (mkTool tt (String.mk fp) ""
                  (numberedDiffPass (tt == "write_file") br.1))
              | none => ti
          else ti
        geminiLoopF fuel br.2 none ti2 acc
      else geminiLoopF fuel rest pending ti (acc ++ [ln])

/-- post-loop steps shared by both `parse` methods: exit-code scan for shell
tools, then the `is_new_file` filesystem check (the filesystem is passed in
as a predicate, `Path(file_path).exists()` in the source). -/
def finishParse (exitLits : List (List Char)) (fs : String → Bool)
    (lines : List (List Char)) (ti : Option CLIToolInfo) : Option CLIToolInfo :=
  let ti2 :=
    match ti with
    | some t =>
      if t.tool_type == "shell" then
        some { t with exit_code := (scanLinesForExit exitLits lines).map Int.ofNat }
      else some t
    | none => none
  match ti2 with
  | some t =>
    if !t.file_path.isEmpty && (t.tool_type == "write_file" || t.tool_type == "edit") then
      some { t with is_new_file := !fs t.file_path }
    else some t
  | none => none

/-- `GeminiToolParser.parse` (the filesystem existence check abstracted as `fs`). -/
def gemini_parse (fs : String → Bool) (raw : String) : String × Option CLIToolInfo :=
  let lines := (splitLinesL (stripL raw.toList)).map preprocessLine
  let r := geminiLoopF (lines.length + 1) lines none none []
  let text_lines := r.1
  let ti1 :=
    match r.2.1, r.2.2 with
    | none, some (tt, fp) =>
      some (mkTool tt (String.mk fp) ""
        (numberedDiffPass (tt == "write_file") text_lines))
    | ti0, _ => ti0
  (String.mk (stripL (joinNlL text_lines)), finishParse geminiExitLits fs lines ti1)

/-! ## Claude parser main loop and entry point
(src/vibe/cli_backends/claude/parser.py `ClaudeToolParser.parse`). -/

/-- the `while i < len(lines)` loop of Claude `parse`. Branches in source
order: `EDIT_FILE_HEADER`, `FILE_ACTION_HEADER`, `BASH_COMMAND_HEADER`
(consumes three lines without clearing the pending header), tool header
outside a box (with the `cat >` reclassification), box start, edit
separator, plain text. -/
def claudeLoopF : Nat → List (List Char) → Option (String × List Char) →
    Option CLIToolInfo → List (List Char) →
    List (List Char) × Option CLIToolInfo × Option (String × List Char)
  | 0, _, pending, ti, acc => (acc, ti, pending)
  | _ + 1, [], pending, ti, acc => (acc, ti, pending)
  | fuel + 1, ln :: rest, pending, ti, acc =>
    match editFileHeader ln with
    | some g => claudeLoopF fuel rest (some ("edit", clean_path g)) ti acc
    | none =>
      if fileActionHeader ln then
        claudeLoopF fuel rest (some ("write_file", "__FROM_BOX__".toList)) ti acc
      else if bashCommandHeader ln then
        let command := match rest.head? with | some l2 => stripL l2 | none => []
        let desc := match (rest.drop 1).head? with | some l3 => stripL l3 | none => []
        claudeLoopF fuel (rest.drop 2) pending
          (some (mkTool "shell" (String.mk command) (String.mk desc) [])) acc
      else
        match claudeToolHeader ln, boxLineMatch ln with
        | some (nm, g), none =>
          let tt := claudeNormalizeToolType nm
          let r := stripL g
          let tf :=
            if tt == "shell" then
              match catMatch r with
              | some g2 =>
                ((if hasSub ">>".toList r then "edit" else "write_file"), clean_path g2)
              | none => ("shell", clean_path r)
            else if startsCI "writing to ".toList r then (tt, clean_path (r.drop 11))
            else if r.contains ':' then (tt, clean_path (r.takeWhile (fun c => c != ':')))
            else (tt, clean_path r)
          claudeLoopF fuel rest (some tf) ti acc
        | _, _ =>
          if boxStart ln then
            let br := claude_extract_box rest
            let ti2 :=
              if !br.1.isEmpty then
                match parse_box claudeToolHeader claudeNormalizeToolType br.1 with
                | some p => some p
                | none =>
                  match pending with
                  | some (tt, fp0) =>
                    let fb :=
                      if fp0 == "__FROM_BOX__".toList && !br.1.isEmpty then
                        (clean_path (br.1.headD []), br.1.drop 1)
                      else (fp0, br.1)
                    some (mkTool tt (String.mk fb.1) ""
                      (claude_extract_diff_from_lines fb.2 (tt == "write_file")))
                  | none => ti
              else ti
            claudeLoopF fuel br.2 none ti2 acc
          else if editSep ln && pending.isSome then
            let cr := collectUntilSep rest
            match pending with
            | some (tt, fp) =>
              claudeLoopF fuel cr.2 none
                (some (mkTool tt (String.mk fp) ""
                  (claude_extract_diff_from_lines cr.1 (tt == "write_file")))) acc
            | none => claudeLoopF fuel rest pending ti (acc ++ [ln])
          else claudeLoopF fuel rest pending ti (acc ++ [ln])

/-- `ClaudeToolParser.parse` (the filesystem existence check abstracted as `fs`). -/
def claude_parse (fs : String → Bool) (raw : String) : String × Option CLIToolInfo :=
  let lines := (splitLinesL (stripL raw.toList)).map preprocessLine
  let r := claudeLoopF (lines.length + 1) lines none none []
  let text_lines := r.1
  let ti1 :=
    match r.2.1, r.2.2 with
    | none, some (tt, fp) =>
      some (mkTool tt (String.mk fp) ""
        (claude_extract_diff_from_lines text_lines (tt == "write_file")))
    | ti0, _ => ti0
  (String.mk (stripL (joinNlL text_lines)), finishParse claudeExitLits fs lines ti1)

/-- filesystem stub for concrete runs: no path exists. -/
def fsNone : String → Bool := fun _ => false

/-! ## Claim C4: shell tools and diff_lines -/

theorem numberedDiffPass_nil_of_no_match (is_new : Bool) (lines : List (List Char))
    (h : ∀ l ∈ lines, lineAdded (stripL l) = none ∧ lineRemoved (stripL l) = none ∧
      lineContext (stripL l) = none) :
    numberedDiffPass is_new lines = [] := by
  induction lines with
  | nil => rfl
  | cons ln rest ih =>
    obtain ⟨h1, h2, h3⟩ := h ln (by simp)
    rw [numberedDiffPass]
    rw [h1, h2, h3]
    simp only [ite_self]
    exact ih (fun l hl => h l (by simp [hl]))

/-- Claim C4 (amended). The numbered-diff extraction used by the Gemini parser
returns an empty `diff_lines` exactly on regions with no numbered-diff-shaped
line, and the Claude `Bash command` path always produces a shell ToolInfo with
empty `diff_lines`; concretely, shell tool calls whose trailing lines carry no
diff-shaped content parse with empty `diff_lines` on both variants. A shell
ToolInfo can however receive non-empty `diff_lines` when the region does carry
diff-shaped (or, for Claude, arbitrary non-noise) lines - see the
counterexample. -/
theorem shell_diff_lines_conditions :
    (∀ (is_new : Bool) (lines : List (List Char)),
      (∀ l ∈ lines, lineAdded (stripL l) = none ∧ lineRemoved (stripL l) = none ∧
        lineContext (stripL l) = none) →
      numberedDiffPass is_new lines = []) ∧
    (claude_parse fsNone "Bash command\nls -la\nList files").2 =
      some ⟨"shell", "ls -la", "List files", [], none, none, false⟩ ∧
    (gemini_parse fsNone "✓  Shell echo hello\nhello output").2 =
      some ⟨"shell", "echo hello", "", [], none, none, false⟩ :=
  ⟨numberedDiffPass_nil_of_no_match, by decide, by decide⟩

/-- Claim C4 counterexample: on both variants `parse` can return a ToolInfo
with `tool_type = "shell"` and non-empty `diff_lines` (Gemini: a numbered
diff-shaped output line; Claude: the raw-content fallback keeps any non-noise
line), refuting the invariant "shell implies empty diff_lines". -/
theorem shell_diff_nonempty_counterexample :
    (gemini_parse fsNone "✓  Shell run x\n1 + foo").2 =
      some ⟨"shell", "run x", "", [("+", "foo")], none, none, false⟩ ∧
    (claude_parse fsNone "● Bash(ls)\nfoo").2 =
      some ⟨"shell", "ls", "", [(" ", "foo")], none, none, false⟩ :=
  ⟨by decide, by decide⟩

/-- Claim C4 witness: the empty-extraction statement applied at a concrete
diff-free region. -/
theorem shell_diff_lines_witness :
    numberedDiffPass false ["hello output".toList, "done".toList] = [] :=
  shell_diff_lines_conditions.1 false ["hello output".toList, "done".toList]
    (by decide)

/-! ## Claim C5: shell exit-code extraction -/

/-- Claim C5 (amended). Each parser sets a shell ToolInfo's `exit_code` to the
first match of its own trailer pattern over the pane lines: the Claude parser
scans for both `Command exited with code: N` and `Error: Exit code N`
(case-insensitive, first match wins), while the Gemini parser scans only for
`Command exited with code: N` and ignores the `Error: Exit code N` form. -/
theorem exit_code_first_match_per_variant :
    (∀ (fs : String → Bool) (lines : List (List Char)) (t : CLIToolInfo),
      t.tool_type = "shell" →
      ∃ t2, finishParse claudeExitLits fs lines (some t) = some t2 ∧
        t2.exit_code = (scanLinesForExit claudeExitLits lines).map Int.ofNat) ∧
    (∀ (fs : String → Bool) (lines : List (List Char)) (t : CLIToolInfo),
      t.tool_type = "shell" →
      ∃ t2, finishParse geminiExitLits fs lines (some t) = some t2 ∧
        t2.exit_code = (scanLinesForExit geminiExitLits lines).map Int.ofNat) ∧
    ((claude_parse fsNone "● Bash(x)\nError: Exit code 9\nCommand exited with code: 7").2).map
        (fun t => t.exit_code) = some (some 9) ∧
    ((claude_parse fsNone "● Bash(x)\nCommand exited with code: 7\nError: Exit code 9").2).map
        (fun t => t.exit_code) = some (some 7) ∧
    ((gemini_parse fsNone "✓  Shell x\nError: Exit code 9\nCommand exited with code: 7").2).map
        (fun t => t.exit_code) = some (some 7) ∧
    ((gemini_parse fsNone "✓  Shell x\nCommand exited with code: 5").2).map
        (fun t => t.exit_code) = some (some 5) := by
  refine ⟨?_, ?_, by decide, by decide, by decide, by decide⟩
  · intro fs lines t ht
    refine ⟨{ t with exit_code := (scanLinesForExit claudeExitLits lines).map Int.ofNat }, ?_, rfl⟩
    simp [finishParse, ht]
  · intro fs lines t ht
    refine ⟨{ t with exit_code := (scanLinesForExit geminiExitLits lines).map Int.ofNat }, ?_, rfl⟩
    simp [finishParse, ht]

/-- Claim C5 counterexample: a Gemini pane carrying the `Error: Exit code 9`
trailer in the shell tool's region parses with `exit_code = none`, although
the claimed combined pattern (the one the Claude parser uses) finds 9. -/
theorem gemini_error_exit_code_counterexample :
    (gemini_parse fsNone "✓  Shell x\nError: Exit code 9").2 =
      some ⟨"shell", "x", "", [], none, none, false⟩ ∧
    sContains "✓  Shell x\nError: Exit code 9" "Error: Exit code 9" = true ∧
    scanLitNum claudeExitLits "Error: Exit code 9".toList = some 9 :=
  ⟨by decide, by decide, by decide⟩

/-- Claim C5 witness: the exit-code assignment applied at a concrete shell tool. -/
theorem exit_code_first_match_witness :
    ∃ t2, finishParse claudeExitLits fsNone ["Error: Exit code 4".toList]
        (some (mkTool "shell" "x" "" [])) = some t2 ∧
      t2.exit_code = (scanLinesForExit claudeExitLits ["Error: Exit code 4".toList]).map Int.ofNat :=
  exit_code_first_match_per_variant.1 fsNone ["Error: Exit code 4".toList]
    (mkTool "shell" "x" "" []) rfl

/-! ## Debate coordinator data model
(src/vibe/debate/routing.py `Message`, src/vibe/debate/agent.py `DebateAgent`).
`datetime.now()` timestamps are modelled as opaque `Nat` values supplied by
the caller; the two coordinator targets are the strings `"claude"` and
`"gemini"`, matching the `last_seen` dict keys. -/

structure Message where
  role : String
  content : String
  timestamp : Nat
  is_ephemeral : Bool
deriving Repr, DecidableEq

/-- the coordinator's mutable state: `messages`, `last_seen`,
`_pending_confirmation` (target, context), `_pending_tool_info`,
`_action_contexts`. -/
structure AgentState where
  messages : List Message
  last_seen_claude : Int
  last_seen_gemini : Int
  pending_confirmation : Option (String × String)
  pending_tool_info : Option CLIToolInfo
  action_contexts : List String
deriving Repr, DecidableEq

/-- the state after `DebateAgent.__init__`. -/
def initialAgentState : AgentState := ⟨[], -1, -1, none, none, []⟩

/-- `self.last_seen[target]` (targets are "claude" and "gemini"). -/
def lastSeen (st : AgentState) (t : String) : Int :=
  if t == "claude" then st.last_seen_claude else st.last_seen_gemini

/-- `self.last_seen[target] = v`. -/
def setLastSeen (st : AgentState) (t : String) (v : Int) : AgentState :=
  if t == "claude" then { st with last_seen_claude := v }
  else { st with last_seen_gemini := v }

/-- the upward event variants the coordinator yields
(src/vibe/core/types: `AssistantEvent`, `CLIToolResultEvent`). -/
inductive BEvent
  | assistantText (content : String)
  | cliToolResult (ti : CLIToolInfo)
deriving Repr, DecidableEq

/-- the CLIToolResultEvents among a yielded event sequence, in order. -/
def cliTools (evs : List BEvent) : List CLIToolInfo :=
  evs.filterMap (fun e =>
    match e with
    | .cliToolResult ti => some ti
    | _ => none)

/-! ## Context building (src/vibe/debate/routing.py) -/

/-- `_role_to_label`. -/
def role_to_label (role : String) (is_current : Bool) : String :=
  if role == "user" then (if is_current then "USER asks" else "USER said")
  else if role == "claude" then "CLAUDE said"
  else if role == "gemini" then "GEMINI said"
  else toUpperS role ++ " said"

/-- `build_context(messages, target, last_seen, limit)`. -/
def build_context (messages : List Message) (target : String)
    (last_seen : String → Int) (limit : Nat) : String :=
  if messages.isEmpty then ""
  else
    let last_seen_idx := last_seen target
    let new_messages := messages.drop (last_seen_idx + 1).toNat
    let new_messages :=
      if limit < new_messages.length then
        new_messages.drop (new_messages.length - limit)
      else new_messages
    let relevant := new_messages.filter (fun m => !m.is_ephemeral)
    if relevant.isEmpty then ""
    else
      let msg_lines := relevant.map (fun m => role_to_label m.role false ++ " " ++ m.content)
      "[Chat context, reply to last USER message]" ++ "\n" ++ joinStr "\n\n" msg_lines

/-! ## Streaming turn (src/vibe/debate/agent.py `route_message`) -/

/-- one chunk of the streaming bridge (`LLMChunk`): content plus finish reason
(`none` for partials, `"confirmation"` or `"stop"` at the end). -/
structure LChunk where
  content : String
  finish_reason : Option String
deriving Repr, DecidableEq

/-- `content.rstrip(" ▌").rstrip("▌")`. -/
def rstripCursor (s : String) : String :=
  String.mk (rstripSetL ['▌'] (rstripSetL [' ', '▌'] s.toList))

/-- the B20 shell-marker cleaning: drop from `__SHELL_OUTPUT__:` to the end,
then delete every `Command exited with code: N` (IGNORECASE). -/
def cleanShellMarkers (s : String) : String :=
  String.mk (removeLitNum geminiExitLits (removeFromMarker s.toList))

/-- outcome of the `async for chunk` loop. -/
inductive StreamOutcome
  | confirmed (ctx : String)
  | finished (full : String)
deriving Repr, DecidableEq

/-- the chunk loop of `route_message`: accumulates `full_response`, yields the
cleaned full-latest text whenever it changed, stops at a confirmation chunk. -/
def streamLoop : List LChunk → String → List BEvent × StreamOutcome
  | [], full => ([], .finished full)
  | ch :: rest, full =>
    if ch.finish_reason == some "confirmation" then ([], .confirmed ch.content)
    else
      let clean_content := rstripCursor ch.content
      let clean_full := rstripCursor full
      if !(clean_content == "") && !(clean_content == clean_full) then
        let c2 := cleanShellMarkers clean_content
        let evs := if !(String.mk (stripL c2.toList) == "") then [BEvent.assistantText c2] else []
        let r := streamLoop rest ch.content
        (evs ++ r.1, r.2)
      else streamLoop rest full

/-- final-response cleaning of `route_message`: shell markers, cursor, strip. -/
def cleanFinalResponse (full : String) : String :=
  String.mk (stripL (rstripSetL [' ', '▌'] (cleanShellMarkers full).toList))

/-- the prompt built in `route_message` (context plus `USER asks`). -/
def routePrompt (st : AgentState) (target clean_msg : String) : String :=
  let context := build_context st.messages target (lastSeen st) 5
  if !(context == "") then context ++ "\nUSER asks " ++ clean_msg
  else "USER asks " ++ clean_msg

/-- `DebateAgent.route_message`. The backend's streamed chunks are supplied as
`chunks`; `parserFor target` is the per-target parser's tool-info component
(`self._get_parser(target).parse(context)[1]`). Returns the yielded events
and the next state. -/
def routeMessage (parserFor : String → String → Option CLIToolInfo)
    (st : AgentState) (user_input : String) (targetArg : Option String)
    (chunks : List LChunk) (now : Nat) : List BEvent × AgentState :=
  let tc : Option (String × String) :=
    match targetArg with
    | none =>
      match parse_routing_tag user_input with
      | (none, _) => none
      | (some t, clean) => some (t, clean)
    | some t => some (t, (parse_routing_tag user_input).2)
  match tc with
  | none => ([], st)
  | some (target, clean_msg) =>
    let st1 := { st with messages := st.messages ++ [⟨"user", clean_msg, now, false⟩] }
    let r := streamLoop chunks ""
    match r.2 with
    | .confirmed ctx =>
      let st2 :=
        if !(ctx == "") then { st1 with pending_tool_info := parserFor target ctx }
        else st1
      (r.1, { st2 with pending_confirmation := some (target, ctx) })
    | .finished full =>
      if !(full == "") then
        let clean_response := cleanFinalResponse full
        let st2 :=
          if !(clean_response == "") then
            { st1 with messages := st1.messages ++ [⟨target, clean_response, now, false⟩] }
          else st1
        (r.1, setLastSeen st2 target ((st2.messages.length : Int) - 1))
      else (r.1, st1)

/-! ## Confirmation lifecycle (src/vibe/debate/agent.py `handle_confirmation`) -/

/-- the value `backend.wait_response` hands back: the Claude session returns a
dict of type "response" or "confirmation"; a plain string is the declared
safety fallback; the Gemini session returns `ParsedResponse` /
`ParsedConfirmation` dataclasses which fail the source's `isinstance(result,
dict)` / `isinstance(result, str)` tests and are treated as empty content
(`otherResult`). -/
inductive WaitResult
  | response (content : String) (exit_code : Option Int) (shell_output : Option String)
  | chained (context : String) (prior_result : String)
      (prior_exit_code : Option Int) (prior_shell_output : Option String)
  | strResult (s : String)
  | otherResult
deriving Repr, DecidableEq

/-- both trailer literals, as in the agent's inline
`(?:Command exited with code:|Error: Exit code)\s*(\d+)` scans. -/
def agentExitLits : List (List Char) :=
  ["Command exited with code:".toList, "Error: Exit code".toList]

/-- response-dict backfill of the pending shell ToolInfo (B67). -/
def backfillResponse (ti : CLIToolInfo) (ec : Option Int) (so : Option String) :
    CLIToolInfo :=
  if ti.tool_type == "shell" then
    let ti1 := match ec with
      | some e => { ti with exit_code := some e }
      | none => ti
    match so with
    | some s => { ti1 with shell_output := some s }
    | none => ti1
  else ti

/-- string-fallback backfill: regex scans over the raw result string. -/
def backfillStr (ti : CLIToolInfo) (s : String) : CLIToolInfo :=
  if ti.tool_type == "shell" then
    let ti1 := match scanLitNum agentExitLits s.toList with
      | some n => { ti with exit_code := some (Int.ofNat n) }
      | none => ti
    match markerCapture s.toList with
    | some cap => { ti1 with shell_output := some (String.mk (stripL cap)) }
    | none => ti1
  else ti

/-- chained-confirmation backfill: structured `prior_*` fields first, then the
text-scraping fallback over `prior_result` (exit-code scan, marker block,
else the trailer-cleaned text when `shell_output` is still falsy). -/
def backfillChained (ti : CLIToolInfo) (pr : String)
    (pec : Option Int) (pso : Option String) : CLIToolInfo :=
  if ti.tool_type == "shell" then
    let ti1 := match pec with
      | some e => { ti with exit_code := some e }
      | none => ti
    let ti2 := match pso with
      | some s => { ti1 with shell_output := some s }
      | none => ti1
    if !(pr == "") && ti2.exit_code == none then
      let ti3 := match scanLitNum agentExitLits pr.toList with
        | some n => { ti2 with exit_code := some (Int.ofNat n) }
        | none => ti2
      match markerCapture pr.toList with
      | some cap => { ti3 with shell_output := some (String.mk (stripL cap)) }
      | none =>
        if ti3.shell_output == none || ti3.shell_output == some "" then
          let clean_output := String.mk (stripL (removeLitNum agentExitLits pr.toList))
          if !(clean_output == "") then { ti3 with shell_output := some clean_output }
          else ti3
        else ti3
    else ti2
  else ti

/-- header line of `_build_action_context` (B55). -/
def actionContextHeader (ti : CLIToolInfo) (target : String) : String :=
  "[" ++ toUpperS target ++ " ACTION: " ++ toUpperS ti.tool_type ++ " " ++
    ti.file_path ++ "]"

/-- the lines `_build_action_context` appends after its header: up to 50 diff
lines with markers, a truncation note, up to 20 shell-output lines, a
truncation note, and the exit-code line when defined. -/
def actionContextTail (ti : CLIToolInfo) : List String :=
  let diffLines := (ti.diff_lines.take 50).map (fun p =>
    (if p.1 == "+" || p.1 == "-" then p.1 else " ") ++ " " ++ p.2)
  let l2 :=
    if 50 < ti.diff_lines.length then
      diffLines ++ ["... (" ++ toString (ti.diff_lines.length - 50) ++ " more lines)"]
    else diffLines
  let l3 :=
    match ti.shell_output with
    | some so =>
      if !(so == "") then
        let outs := splitLinesS so
        let l := l2 ++ outs.take 20
        if 20 < outs.length then
          l ++ ["... (" ++ toString (outs.length - 20) ++ " more lines)"]
        else l
      else l2
    | none => l2
  match ti.exit_code with
  | some c => l3 ++ ["Exit: " ++ toString c]
  | none => l3

/-- `_build_action_context(tool_info, target)` (B55). -/
def build_action_context (ti : CLIToolInfo) (target : String) : String :=
  joinStr "\n" (actionContextHeader ti target :: actionContextTail ti)

/-- terminal-case content scrubbing of `handle_confirmation`: marker tail,
`Command exited with code: N` lines, strip. -/
def scrubContent (content : String) : String :=
  if !(content == "") then
    String.mk (stripL (removeLitNum geminiExitLits (removeFromMarker content.toList)))
  else content

/-- the B55 history flush: history content from the cleaned text and the
accumulated action contexts. -/
def flushHistory (content : String) (ctxs : List String) : String :=
  if !ctxs.isEmpty then
    let actions_text := joinStr "\n\n" ctxs
    if !(content == "") then content ++ "\n\n" ++ actions_text else actions_text
  else content

/-- `DebateAgent.handle_confirmation(approved)`; `result` is what
`backend.wait_response` would return (for a rejection the source never calls
`wait_response`, and `result` is ignored). -/
def handleConfirmation (parserFor : String → String → Option CLIToolInfo)
    (st : AgentState) (approved : Bool) (result : WaitResult) (now : Nat) :
    List BEvent × AgentState :=
  match st.pending_confirmation with
  | none => ([], st)
  | some (target, _ctx) =>
    let st1 := { st with pending_confirmation := none }
    if target == "" then ([], st1)
    else if !approved then ([], st1)
    else
      match result with
      | .chained ctx pr pec pso =>
        let st2 :=
          match st1.pending_tool_info with
          | some ti => { st1 with pending_tool_info := some (backfillChained ti pr pec pso) }
          | none => st1
        let er :=
          match st2.pending_tool_info with
          | some ti2 =>
            ([BEvent.cliToolResult ti2],
             { st2 with action_contexts :=
                st2.action_contexts ++ [build_action_context ti2 target] })
          | none => ([], st2)
        let st4 := { er.2 with pending_confirmation := some (target, ctx),
                               pending_tool_info := parserFor target ctx }
        (er.1 ++ [BEvent.assistantText "[Another confirmation required]"], st4)
      | _ =>
        let ct : String × Option CLIToolInfo :=
          match result with
          | .response c ec so => (c, st1.pending_tool_info.map (fun ti => backfillResponse ti ec so))
          | .strResult s => (s, st1.pending_tool_info.map (fun ti => backfillStr ti s))
          | _ => ("", st1.pending_tool_info)
        let st2 := { st1 with pending_tool_info := ct.2 }
        let content := scrubContent ct.1
        let ui_content := content
        let st3 :=
          match st2.pending_tool_info with
          | some ti =>
            { st2 with action_contexts :=
                st2.action_contexts ++ [build_action_context ti target] }
          | none => st2
        let history_content := flushHistory content st3.action_contexts
        let st4 :=
          if !st3.action_contexts.isEmpty then { st3 with action_contexts := [] } else st3
        let st5 :=
          if !(history_content == "") then
            let stm := { st4 with messages := st4.messages ++ [⟨target, history_content, now, false⟩] }
            setLastSeen stm target ((stm.messages.length : Int) - 1)
          else st4
        ((if !(ui_content == "") then [BEvent.assistantText ui_content] else []), st5)

/-- `DebateAgent.has_pending_confirmation`. -/
def has_pending_confirmation (st : AgentState) : Bool :=
  st.pending_confirmation.isSome

/-- `DebateAgent.clear_pending_tool_info`. -/
def clear_pending_tool_info (st : AgentState) : AgentState :=
  { st with pending_tool_info := none }

/-- `DebateAgent.clear_history`. -/
def clear_history (st : AgentState) : AgentState :=
  { st with messages := [], last_seen_claude := -1, last_seen_gemini := -1,
            action_contexts := [] }

/-! ## ConversationHistory (src/vibe/debate/history.py) -/

structure ConversationHistory where
  max_messages : Nat
  messages : List Message
  last_seen_claude : Int
  last_seen_gemini : Int
deriving Repr, DecidableEq

/-- `ConversationHistory.add_message`: append, then trim from the front when
over `max_messages`, adjusting the last-seen cursors. -/
def ConversationHistory.add_message (h : ConversationHistory)
    (role content : String) (is_ephemeral : Bool) (now : Nat) : ConversationHistory :=
  let msgs := h.messages ++ [⟨role, content, now, is_ephemeral⟩]
  if h.max_messages < msgs.length then
    let excess := msgs.length - h.max_messages
    { h with messages := msgs.drop excess,
             last_seen_claude := max 0 (h.last_seen_claude - (excess : Int)),
             last_seen_gemini := max 0 (h.last_seen_gemini - (excess : Int)) }
  else { h with messages := msgs }

/-- `ConversationHistory.clear`. -/
def ConversationHistory.clear (h : ConversationHistory) : ConversationHistory :=
  { h with messages := [], last_seen_claude := -1, last_seen_gemini := -1 }

/-! ## String-length helper lemmas -/

theorem string_one_le_length (x : String) (hx : ¬ x = "") : 1 ≤ x.length := by
  cases x with
  | mk data =>
    cases data with
    | nil => exact absurd rfl hx
    | cons c cs => simp [String.length]

theorem joinStr_cons_length (sep x : String) (xs : List String) :
    x.length ≤ (joinStr sep (x :: xs)).length := by
  cases xs with
  | nil => simp [joinStr]
  | cons y ys =>
    simp only [joinStr, String.length_append]
    omega

theorem joinStr_append_singleton_length (sep x : String) (l : List String) :
    x.length ≤ (joinStr sep (l ++ [x])).length := by
  induction l with
  | nil => simp [joinStr]
  | cons a l ih =>
    rw [List.cons_append]
    cases h2 : l ++ [x] with
    | nil => exact absurd h2 (by simp)
    | cons b bs =>
      rw [h2] at ih
      show x.length ≤ (joinStr sep (a :: b :: bs)).length
      simp only [joinStr, String.length_append]
      omega

theorem actionContextHeader_length (ti : CLIToolInfo) (target : String) :
    1 ≤ (actionContextHeader ti target).length := by
  unfold actionContextHeader
  have h1 : "[".length = 1 := rfl
  simp only [String.length_append]
  omega

theorem build_action_context_ne_empty (ti : CLIToolInfo) (target : String) :
    ¬ build_action_context ti target = "" := by
  intro h
  have h1 := joinStr_cons_length "\n" (actionContextHeader ti target) (actionContextTail ti)
  rw [build_action_context] at h
  rw [h] at h1
  have h2 := actionContextHeader_length ti target
  have h3 : ("" : String).length = 0 := rfl
  omega

theorem flushHistory_append_ne_empty (content x : String) (acc : List String)
    (hx : ¬ x = "") : ¬ flushHistory content (acc ++ [x]) = "" := by
  intro h
  simp only [flushHistory] at h
  rw [show ((acc ++ [x]).isEmpty : Bool) = false by simp] at h
  simp only [Bool.not_false, if_true] at h
  have hxl := string_one_le_length x hx
  have hj := joinStr_append_singleton_length "\n\n" x acc
  have h3 : ("" : String).length = 0 := rfl
  split at h
  · next hc =>
    have h5 := congrArg String.length h
    rw [h3] at h5
    simp only [String.length_append] at h5
    omega
  · have h5 := congrArg String.length h
    rw [h3] at h5
    omega

/-! ## setLastSeen projection lemmas -/

@[simp] theorem setLastSeen_messages (st : AgentState) (t : String) (v : Int) :
    (setLastSeen st t v).messages = st.messages := by
  unfold setLastSeen; split <;> rfl

@[simp] theorem setLastSeen_pending_confirmation (st : AgentState) (t : String) (v : Int) :
    (setLastSeen st t v).pending_confirmation = st.pending_confirmation := by
  unfold setLastSeen; split <;> rfl

@[simp] theorem setLastSeen_pending_tool_info (st : AgentState) (t : String) (v : Int) :
    (setLastSeen st t v).pending_tool_info = st.pending_tool_info := by
  unfold setLastSeen; split <;> rfl

@[simp] theorem setLastSeen_action_contexts (st : AgentState) (t : String) (v : Int) :
    (setLastSeen st t v).action_contexts = st.action_contexts := by
  unfold setLastSeen; split <;> rfl

theorem lastSeen_setLastSeen_same (st : AgentState) (t : String) (v : Int) :
    lastSeen (setLastSeen st t v) t = v := by
  by_cases h : (t == "claude") = true <;> simp [lastSeen, setLastSeen, h]

/-! ## Claim C2: rejected confirmation -/

/-- Claim C2 (amended). A rejected confirmation (`handle_confirmation` with
`approved = false`) yields no events, leaves `messages` unchanged and discards
the `PendingConfirmation`; the parsed pending ToolInfo however survives the
call and is only discarded by the separate `clear_pending_tool_info` the UI
invokes afterwards. -/
theorem rejected_confirmation_effects
    (parserFor : String → String → Option CLIToolInfo) (st : AgentState)
    (result : WaitResult) (now : Nat) :
    (handleConfirmation parserFor st false result now).1 = [] ∧
    (handleConfirmation parserFor st false result now).2.messages = st.messages ∧
    (handleConfirmation parserFor st false result now).2.pending_confirmation = none ∧
    (handleConfirmation parserFor st false result now).2.pending_tool_info =
      st.pending_tool_info ∧
    (clear_pending_tool_info
      (handleConfirmation parserFor st false result now).2).pending_tool_info = none := by
  unfold handleConfirmation
  cases hp : st.pending_confirmation with
  | none => simp [hp, clear_pending_tool_info]
  | some pc =>
    obtain ⟨t, c⟩ := pc
    by_cases ht : (t == "") = true <;> simp [ht, clear_pending_tool_info]

/-- Claim C2 counterexample: after a rejection the pending ToolInfo is still
held by the coordinator (it is not discarded by `handle_confirmation`). -/
theorem rejected_confirmation_keeps_tool_info :
    (handleConfirmation (fun _ _ => none)
        ⟨[], -1, -1, some ("claude", "ctx"), some (mkTool "shell" "ls" "" []), []⟩
        false .otherResult 0).2.pending_tool_info
      = some (mkTool "shell" "ls" "" []) := by decide

/-! ## Claim C10: clear_history leaves the confirmation state alone -/

/-- Claim C10. `clear_history` resets only `messages`, `last_seen` and the
action-context buffer; the pending confirmation and its parsed ToolInfo
survive, `has_pending_confirmation` still reports true afterwards, and a
subsequent approved `handle_confirmation` appends one message to the freshly
cleared log. -/
theorem clear_history_keeps_pending
    (parserFor : String → String → Option CLIToolInfo) (st : AgentState)
    (t c : String) (ti : CLIToolInfo) (now : Nat)
    (hp : st.pending_confirmation = some (t, c)) (ht : ¬ t = "")
    (hti : st.pending_tool_info = some ti) :
    (clear_history st).messages = [] ∧
    (clear_history st).last_seen_claude = -1 ∧
    (clear_history st).last_seen_gemini = -1 ∧
    (clear_history st).action_contexts = [] ∧
    (clear_history st).pending_confirmation = st.pending_confirmation ∧
    (clear_history st).pending_tool_info = st.pending_tool_info ∧
    has_pending_confirmation (clear_history st) = true ∧
    (handleConfirmation parserFor (clear_history st) true
        (.response "" none none) now).2.messages =
      [⟨t, build_action_context (backfillResponse ti none none) t, now, false⟩] := by
  have htb : (t == "") = false := by
    simpa using ht
  have hbne := build_action_context_ne_empty (backfillResponse ti none none) t
  have hbneb : (build_action_context (backfillResponse ti none none) t == "") = false := by
    simpa using hbne
  refine ⟨rfl, rfl, rfl, rfl, by simp [clear_history, hp], by simp [clear_history], ?_, ?_⟩
  · simp [has_pending_confirmation, clear_history, hp]
  · unfold handleConfirmation
    simp only [clear_history, hp, htb, hti]
    simp [scrubContent, flushHistory, hbneb, joinStr]

/-- Claim C10 witness: the clear-then-approve run at a concrete state. -/
theorem clear_history_keeps_pending_witness :
    has_pending_confirmation (clear_history
      ⟨[], -1, -1, some ("claude", "ctx"), some (mkTool "shell" "ls" "" []), []⟩) = true ∧
    (handleConfirmation (fun _ _ => none)
        (clear_history
          ⟨[], -1, -1, some ("claude", "ctx"), some (mkTool "shell" "ls" "" []), []⟩)
        true (.response "" none none) 3).2.messages =
      [⟨"claude",
        build_action_context (backfillResponse (mkTool "shell" "ls" "" []) none none)
          "claude", 3, false⟩] := by
  have h := clear_history_keeps_pending (fun _ _ => none)
    ⟨[], -1, -1, some ("claude", "ctx"), some (mkTool "shell" "ls" "" []), []⟩
    "claude" "ctx" (mkTool "shell" "ls" "" []) 3 rfl (by decide) rfl
  exact ⟨h.2.2.2.2.2.2.1, h.2.2.2.2.2.2.2⟩

/-! ## State-delta lemmas for the coordinator operations -/

theorem lastSeen_setLastSeen (st : AgentState) (t : String) (v : Int) (T : String) :
    lastSeen (setLastSeen st t v) T = v ∨ lastSeen (setLastSeen st t v) T = lastSeen st T := by
  by_cases h1 : (T == "claude") = true <;> by_cases h2 : (t == "claude") = true <;>
    simp [lastSeen, setLastSeen, h1, h2]

set_option maxHeartbeats 1000000 in
/-- `route_message` only ever appends to the log, and each `last_seen` entry is
either untouched or set to the index of the last message. -/
theorem routeMessage_delta (pf : String → String → Option CLIToolInfo)
    (st : AgentState) (ui : String) (tgt : Option String)
    (chunks : List LChunk) (now : Nat) :
    (∃ tail, (routeMessage pf st ui tgt chunks now).2.messages = st.messages ++ tail) ∧
    ((routeMessage pf st ui tgt chunks now).2.last_seen_claude = st.last_seen_claude ∨
      (routeMessage pf st ui tgt chunks now).2.last_seen_claude = ((routeMessage pf st ui tgt chunks now).2.messages.length : Int) - 1) ∧
    ((routeMessage pf st ui tgt chunks now).2.last_seen_gemini = st.last_seen_gemini ∨
      (routeMessage pf st ui tgt chunks now).2.last_seen_gemini = ((routeMessage pf st ui tgt chunks now).2.messages.length : Int) - 1) := by
  rcases hso : streamLoop chunks "" with ⟨evs, oc⟩
  rcases hpt : parse_routing_tag ui with ⟨o, cl⟩
  rcases tgt with _ | t2
  · rcases o with _ | t
    · simp only [routeMessage, hpt]
      exact ⟨⟨[], by simp⟩, Or.inl (by simp), Or.inl (by simp)⟩
    · rcases oc with ctx | full
      · simp only [routeMessage, hpt, hso]
        refine ⟨?_, ?_, ?_⟩
        · repeat' split
          all_goals
            first
              | exact ⟨_, rfl⟩
              | (refine ⟨[], ?_⟩
                 simp
                 done)
              | (simp only [setLastSeen_messages, List.append_assoc]
                 exact ⟨_, rfl⟩)
        · by_cases h2 : (t == "claude") = true <;>
            (repeat' split
             all_goals
               first
                 | exact Or.inl rfl
                 | (right
                    simp only [setLastSeen]
                    rw [if_pos h2]
                    done)
                 | (right
                    simp only [setLastSeen]
                    rw [if_neg h2]
                    done)
                 | (left
                    simp only [setLastSeen]
                    rw [if_pos h2]
                    done)
                 | (left
                    simp only [setLastSeen]
                    rw [if_neg h2]
                    done))
        · by_cases h2 : (t == "claude") = true <;>
            (repeat' split
             all_goals
               first
                 | exact Or.inl rfl
                 | (right
                    simp only [setLastSeen]
                    rw [if_pos h2]
                    done)
                 | (right
                    simp only [setLastSeen]
                    rw [if_neg h2]
                    done)
                 | (left
                    simp only [setLastSeen]
                    rw [if_pos h2]
                    done)
                 | (left
                    simp only [setLastSeen]
                    rw [if_neg h2]
                    done))
      · simp only [routeMessage, hpt, hso]
        refine ⟨?_, ?_, ?_⟩
        · repeat' split
          all_goals
            first
              | exact ⟨_, rfl⟩
              | (refine ⟨[], ?_⟩
                 simp
                 done)
              | (simp only [setLastSeen_messages, List.append_assoc]
                 exact ⟨_, rfl⟩)
        · by_cases h2 : (t == "claude") = true <;>
            (repeat' split
             all_goals
               first
                 | exact Or.inl rfl
                 | (right
                    simp only [setLastSeen]
                    rw [if_pos h2]
                    done)
                 | (right
                    simp only [setLastSeen]
                    rw [if_neg h2]
                    done)
                 | (left
                    simp only [setLastSeen]
                    rw [if_pos h2]
                    done)
                 | (left
                    simp only [setLastSeen]
                    rw [if_neg h2]
                    done))
        · by_cases h2 : (t == "claude") = true <;>
            (repeat' split
             all_goals
               first
                 | exact Or.inl rfl
                 | (right
                    simp only [setLastSeen]
                    rw [if_pos h2]
                    done)
                 | (right
                    simp only [setLastSeen]
                    rw [if_neg h2]
                    done)
                 | (left
                    simp only [setLastSeen]
                    rw [if_pos h2]
                    done)
                 | (left
                    simp only [setLastSeen]
                    rw [if_neg h2]
                    done))
  · rcases oc with ctx | full
    · simp only [routeMessage, hpt, hso]
      refine ⟨?_, ?_, ?_⟩
      · repeat' split
        all_goals
          first
            | exact ⟨_, rfl⟩
            | (refine ⟨[], ?_⟩
               simp
               done)
            | (simp only [setLastSeen_messages, List.append_assoc]
               exact ⟨_, rfl⟩)
      · by_cases h2 : (t2 == "claude") = true <;>
          (repeat' split
           all_goals
             first
               | exact Or.inl rfl
               | (right
                  simp only [setLastSeen]
                  rw [if_pos h2]
                  done)
               | (right
                  simp only [setLastSeen]
                  rw [if_neg h2]
                  done)
               | (left
                  simp only [setLastSeen]
                  rw [if_pos h2]
                  done)
               | (left
                  simp only [setLastSeen]
                  rw [if_neg h2]
                  done))
      · by_cases h2 : (t2 == "claude") = true <;>
          (repeat' split
           all_goals
             first
               | exact Or.inl rfl
               | (right
                  simp only [setLastSeen]
                  rw [if_pos h2]
                  done)
               | (right
                  simp only [setLastSeen]
                  rw [if_neg h2]
                  done)
               | (left
                  simp only [setLastSeen]
                  rw [if_pos h2]
                  done)
               | (left
                  simp only [setLastSeen]
                  rw [if_neg h2]
                  done))
    · simp only [routeMessage, hpt, hso]
      refine ⟨?_, ?_, ?_⟩
      · repeat' split
        all_goals
          first
            | exact ⟨_, rfl⟩
            | (refine ⟨[], ?_⟩
               simp
               done)
            | (simp only [setLastSeen_messages, List.append_assoc]
               exact ⟨_, rfl⟩)
      · by_cases h2 : (t2 == "claude") = true <;>
          (repeat' split
           all_goals
             first
               | exact Or.inl rfl
               | (right
                  simp only [setLastSeen]
                  rw [if_pos h2]
                  done)
               | (right
                  simp only [setLastSeen]
                  rw [if_neg h2]
                  done)
               | (left
                  simp only [setLastSeen]
                  rw [if_pos h2]
                  done)
               | (left
                  simp only [setLastSeen]
                  rw [if_neg h2]
                  done))
      · by_cases h2 : (t2 == "claude") = true <;>
          (repeat' split
           all_goals
             first
               | exact Or.inl rfl
               | (right
                  simp only [setLastSeen]
                  rw [if_pos h2]
                  done)
               | (right
                  simp only [setLastSeen]
                  rw [if_neg h2]
                  done)
               | (left
                  simp only [setLastSeen]
                  rw [if_pos h2]
                  done)
               | (left
                  simp only [setLastSeen]
                  rw [if_neg h2]
                  done))

set_option maxHeartbeats 1000000 in
/-- `handle_confirmation` only ever appends to the log, and each `last_seen`
entry is either untouched or set to the index of the last message. -/
theorem handleConfirmation_delta (pf : String → String → Option CLIToolInfo)
    (st : AgentState) (ap : Bool) (r : WaitResult) (now : Nat) :
    (∃ tail, (handleConfirmation pf st ap r now).2.messages = st.messages ++ tail) ∧
    ((handleConfirmation pf st ap r now).2.last_seen_claude = st.last_seen_claude ∨
      (handleConfirmation pf st ap r now).2.last_seen_claude = ((handleConfirmation pf st ap r now).2.messages.length : Int) - 1) ∧
    ((handleConfirmation pf st ap r now).2.last_seen_gemini = st.last_seen_gemini ∨
      (handleConfirmation pf st ap r now).2.last_seen_gemini = ((handleConfirmation pf st ap r now).2.messages.length : Int) - 1) := by
  rcases hpc : st.pending_confirmation with _ | ⟨target, ctx0⟩
  · simp only [handleConfirmation, hpc]
    exact ⟨⟨[], by simp⟩, Or.inl (by simp), Or.inl (by simp)⟩
  · rcases hti : st.pending_tool_info with _ | ti
    · rcases r with ⟨c, ec, so⟩ | ⟨cctx, pr, pec, pso⟩ | s | _
      · simp only [handleConfirmation, hpc, hti, Option.map_none']
        refine ⟨?_, ?_, ?_⟩
        · repeat' split
          all_goals
            first
              | exact ⟨_, rfl⟩
              | (refine ⟨[], ?_⟩
                 simp
                 done)
              | (simp only [setLastSeen_messages, List.append_assoc]
                 exact ⟨_, rfl⟩)
        · by_cases h2 : (target == "claude") = true <;>
            (repeat' split
             all_goals
               first
                 | exact Or.inl rfl
                 | (right
                    simp only [setLastSeen]
                    rw [if_pos h2]
                    done)
                 | (right
                    simp only [setLastSeen]
                    rw [if_neg h2]
                    done)
                 | (left
                    simp only [setLastSeen]
                    rw [if_pos h2]
                    done)
                 | (left
                    simp only [setLastSeen]
                    rw [if_neg h2]
                    done))
        · by_cases h2 : (target == "claude") = true <;>
            (repeat' split
             all_goals
               first
                 | exact Or.inl rfl
                 | (right
                    simp only [setLastSeen]
                    rw [if_pos h2]
                    done)
                 | (right
                    simp only [setLastSeen]
                    rw [if_neg h2]
                    done)
                 | (left
                    simp only [setLastSeen]
                    rw [if_pos h2]
                    done)
                 | (left
                    simp only [setLastSeen]
                    rw [if_neg h2]
                    done))
      · simp only [handleConfirmation, hpc, hti]
        refine ⟨?_, ?_, ?_⟩
        · repeat' split
          all_goals
            first
              | exact ⟨_, rfl⟩
              | (refine ⟨[], ?_⟩
                 simp
                 done)
              | (simp only [setLastSeen_messages, List.append_assoc]
                 exact ⟨_, rfl⟩)
        · by_cases h2 : (target == "claude") = true <;>
            (repeat' split
             all_goals
               first
                 | exact Or.inl rfl
                 | (right
                    simp only [setLastSeen]
                    rw [if_pos h2]
                    done)
                 | (right
                    simp only [setLastSeen]
                    rw [if_neg h2]
                    done)
                 | (left
                    simp only [setLastSeen]
                    rw [if_pos h2]
                    done)
                 | (left
                    simp only [setLastSeen]
                    rw [if_neg h2]
                    done))
        · by_cases h2 : (target == "claude") = true <;>
            (repeat' split
             all_goals
               first
                 | exact Or.inl rfl
                 | (right
                    simp only [setLastSeen]
                    rw [if_pos h2]
                    done)
                 | (right
                    simp only [setLastSeen]
                    rw [if_neg h2]
                    done)
                 | (left
                    simp only [setLastSeen]
                    rw [if_pos h2]
                    done)
                 | (left
                    simp only [setLastSeen]
                    rw [if_neg h2]
                    done))
      · simp only [handleConfirmation, hpc, hti, Option.map_none']
        refine ⟨?_, ?_, ?_⟩
        · repeat' split
          all_goals
            first
              | exact ⟨_, rfl⟩
              | (refine ⟨[], ?_⟩
                 simp
                 done)
              | (simp only [setLastSeen_messages, List.append_assoc]
                 exact ⟨_, rfl⟩)
        · by_cases h2 : (target == "claude") = true <;>
            (repeat' split
             all_goals
               first
                 | exact Or.inl rfl
                 | (right
                    simp only [setLastSeen]
                    rw [if_pos h2]
                    done)
                 | (right
                    simp only [setLastSeen]
                    rw [if_neg h2]
                    done)
                 | (left
                    simp only [setLastSeen]
                    rw [if_pos h2]
                    done)
                 | (left
                    simp only [setLastSeen]
                    rw [if_neg h2]
                    done))
        · by_cases h2 : (target == "claude") = true <;>
            (repeat' split
             all_goals
               first
                 | exact Or.inl rfl
                 | (right
                    simp only [setLastSeen]
                    rw [if_pos h2]
                    done)
                 | (right
                    simp only [setLastSeen]
                    rw [if_neg h2]
                    done)
                 | (left
                    simp only [setLastSeen]
                    rw [if_pos h2]
                    done)
                 | (left
                    simp only [setLastSeen]
                    rw [if_neg h2]
                    done))
      · simp only [handleConfirmation, hpc, hti]
        refine ⟨?_, ?_, ?_⟩
        · repeat' split
          all_goals
            first
              | exact ⟨_, rfl⟩
              | (refine ⟨[], ?_⟩
                 simp
                 done)
              | (simp only [setLastSeen_messages, List.append_assoc]
                 exact ⟨_, rfl⟩)
        · by_cases h2 : (target == "claude") = true <;>
            (repeat' split
             all_goals
               first
                 | exact Or.inl rfl
                 | (right
                    simp only [setLastSeen]
                    rw [if_pos h2]
                    done)
                 | (right
                    simp only [setLastSeen]
                    rw [if_neg h2]
                    done)
                 | (left
                    simp only [setLastSeen]
                    rw [if_pos h2]
                    done)
                 | (left
                    simp only [setLastSeen]
                    rw [if_neg h2]
                    done))
        · by_cases h2 : (target == "claude") = true <;>
            (repeat' split
             all_goals
               first
                 | exact Or.inl rfl
                 | (right
                    simp only [setLastSeen]
                    rw [if_pos h2]
                    done)
                 | (right
                    simp only [setLastSeen]
                    rw [if_neg h2]
                    done)
                 | (left
                    simp only [setLastSeen]
                    rw [if_pos h2]
                    done)
                 | (left
                    simp only [setLastSeen]
                    rw [if_neg h2]
                    done))
    · rcases r with ⟨c, ec, so⟩ | ⟨cctx, pr, pec, pso⟩ | s | _
      · simp only [handleConfirmation, hpc, hti, Option.map_some']
        refine ⟨?_, ?_, ?_⟩
        · repeat' split
          all_goals
            first
              | exact ⟨_, rfl⟩
              | (refine ⟨[], ?_⟩
                 simp
                 done)
              | (simp only [setLastSeen_messages, List.append_assoc]
                 exact ⟨_, rfl⟩)
        · by_cases h2 : (target == "claude") = true <;>
            (repeat' split
             all_goals
               first
                 | exact Or.inl rfl
                 | (right
                    simp only [setLastSeen]
                    rw [if_pos h2]
                    done)
                 | (right
                    simp only [setLastSeen]
                    rw [if_neg h2]
                    done)
                 | (left
                    simp only [setLastSeen]
                    rw [if_pos h2]
                    done)
                 | (left
                    simp only [setLastSeen]
                    rw [if_neg h2]
                    done))
        · by_cases h2 : (target == "claude") = true <;>
            (repeat' split
             all_goals
               first
                 | exact Or.inl rfl
                 | (right
                    simp only [setLastSeen]
                    rw [if_pos h2]
                    done)
                 | (right
                    simp only [setLastSeen]
                    rw [if_neg h2]
                    done)
                 | (left
                    simp only [setLastSeen]
                    rw [if_pos h2]
                    done)
                 | (left
                    simp only [setLastSeen]
                    rw [if_neg h2]
                    done))
      · simp only [handleConfirmation, hpc, hti]
        refine ⟨?_, ?_, ?_⟩
        · repeat' split
          all_goals
            first
              | exact ⟨_, rfl⟩
              | (refine ⟨[], ?_⟩
                 simp
                 done)
              | (simp only [setLastSeen_messages, List.append_assoc]
                 exact ⟨_, rfl⟩)
        · by_cases h2 : (target == "claude") = true <;>
            (repeat' split
             all_goals
               first
                 | exact Or.inl rfl
                 | (right
                    simp only [setLastSeen]
                    rw [if_pos h2]
                    done)
                 | (right
                    simp only [setLastSeen]
                    rw [if_neg h2]
                    done)
                 | (left
                    simp only [setLastSeen]
                    rw [if_pos h2]
                    done)
                 | (left
                    simp only [setLastSeen]
                    rw [if_neg h2]
                    done))
        · by_cases h2 : (target == "claude") = true <;>
            (repeat' split
             all_goals
               first
                 | exact Or.inl rfl
                 | (right
                    simp only [setLastSeen]
                    rw [if_pos h2]
                    done)
                 | (right
                    simp only [setLastSeen]
                    rw [if_neg h2]
                    done)
                 | (left
                    simp only [setLastSeen]
                    rw [if_pos h2]
                    done)
                 | (left
                    simp only [setLastSeen]
                    rw [if_neg h2]
                    done))
      · simp only [handleConfirmation, hpc, hti, Option.map_some']
        refine ⟨?_, ?_, ?_⟩
        · repeat' split
          all_goals
            first
              | exact ⟨_, rfl⟩
              | (refine ⟨[], ?_⟩
                 simp
                 done)
              | (simp only [setLastSeen_messages, List.append_assoc]
                 exact ⟨_, rfl⟩)
        · by_cases h2 : (target == "claude") = true <;>
            (repeat' split
             all_goals
               first
                 | exact Or.inl rfl
                 | (right
                    simp only [setLastSeen]
                    rw [if_pos h2]
                    done)
                 | (right
                    simp only [setLastSeen]
                    rw [if_neg h2]
                    done)
                 | (left
                    simp only [setLastSeen]
                    rw [if_pos h2]
                    done)
                 | (left
                    simp only [setLastSeen]
                    rw [if_neg h2]
                    done))
        · by_cases h2 : (target == "claude") = true <;>
            (repeat' split
             all_goals
               first
                 | exact Or.inl rfl
                 | (right
                    simp only [setLastSeen]
                    rw [if_pos h2]
                    done)
                 | (right
                    simp only [setLastSeen]
                    rw [if_neg h2]
                    done)
                 | (left
                    simp only [setLastSeen]
                    rw [if_pos h2]
                    done)
                 | (left
                    simp only [setLastSeen]
                    rw [if_neg h2]
                    done))
      · simp only [handleConfirmation, hpc, hti]
        refine ⟨?_, ?_, ?_⟩
        · repeat' split
          all_goals
            first
              | exact ⟨_, rfl⟩
              | (refine ⟨[], ?_⟩
                 simp
                 done)
              | (simp only [setLastSeen_messages, List.append_assoc]
                 exact ⟨_, rfl⟩)
        · by_cases h2 : (target == "claude") = true <;>
            (repeat' split
             all_goals
               first
                 | exact Or.inl rfl
                 | (right
                    simp only [setLastSeen]
                    rw [if_pos h2]
                    done)
                 | (right
                    simp only [setLastSeen]
                    rw [if_neg h2]
                    done)
                 | (left
                    simp only [setLastSeen]
                    rw [if_pos h2]
                    done)
                 | (left
                    simp only [setLastSeen]
                    rw [if_neg h2]
                    done))
        · by_cases h2 : (target == "claude") = true <;>
            (repeat' split
             all_goals
               first
                 | exact Or.inl rfl
                 | (right
                    simp only [setLastSeen]
                    rw [if_pos h2]
                    done)
                 | (right
                    simp only [setLastSeen]
                    rw [if_neg h2]
                    done)
                 | (left
                    simp only [setLastSeen]
                    rw [if_pos h2]
                    done)
                 | (left
                    simp only [setLastSeen]
                    rw [if_neg h2]
                    done))

/-! ## Claim C8: the conversation log is append-only -/

/-- Claim C8 (amended). The coordinator operations are append-only on the
conversation log: `route_message` and `handle_confirmation` only ever append
messages, `clear_pending_tool_info` leaves the log unchanged, and the explicit
reset `clear_history` empties it. `ConversationHistory.add_message` however is
only append-only up to its capacity: its result is the appended log with some
prefix dropped, and once `max_messages` is exceeded the oldest entries are
removed from the front. -/
theorem conversation_log_append_only :
    (∀ (pf : String → String → Option CLIToolInfo) (st : AgentState)
        (ui : String) (tgt : Option String) (chunks : List LChunk) (now : Nat),
      ∃ tail, (routeMessage pf st ui tgt chunks now).2.messages = st.messages ++ tail) ∧
    (∀ (pf : String → String → Option CLIToolInfo) (st : AgentState)
        (ap : Bool) (r : WaitResult) (now : Nat),
      ∃ tail, (handleConfirmation pf st ap r now).2.messages = st.messages ++ tail) ∧
    (∀ st : AgentState, (clear_pending_tool_info st).messages = st.messages) ∧
    (∀ st : AgentState, (clear_history st).messages = []) ∧
    (∀ (h : ConversationHistory) (role content : String) (eph : Bool) (now : Nat),
      ∃ k, (ConversationHistory.add_message h role content eph now).messages =
        (h.messages ++ [(⟨role, content, now, eph⟩ : Message)]).drop k) := by
  refine ⟨fun pf st ui tgt chunks now => (routeMessage_delta pf st ui tgt chunks now).1,
    fun pf st ap r now => (handleConfirmation_delta pf st ap r now).1,
    fun st => rfl, fun st => rfl, fun h role content eph now => ?_⟩
  simp only [ConversationHistory.add_message]
  split
  · exact ⟨_, rfl⟩
  · exact ⟨0, rfl⟩

/-- Claim C8 counterexample: a bounded `ConversationHistory` (capacity 1)
removes its oldest entry on the second `add_message`, so the stored log is not
append-only. -/
theorem bounded_history_drops_oldest :
    (⟨"user", "a", 0, false⟩ : Message) ∈
      ((⟨1, [], -1, -1⟩ : ConversationHistory).add_message
        "user" "a" false 0).messages ∧
    (⟨"user", "a", 0, false⟩ : Message) ∉
      (((⟨1, [], -1, -1⟩ : ConversationHistory).add_message
        "user" "a" false 0).add_message "user" "b" false 1).messages := by
  decide

/-! ## Claim C6: the last-seen invariant -/

/-- the invariant: for both backends, `-1 <= last_seen[T] < len(messages)`. -/
def lastSeenInv (st : AgentState) : Prop :=
  -1 ≤ st.last_seen_claude ∧ st.last_seen_claude < (st.messages.length : Int) ∧
  -1 ≤ st.last_seen_gemini ∧ st.last_seen_gemini < (st.messages.length : Int)

/-- the coordinator states reachable from `DebateAgent.__init__` through the
public operations. -/
inductive Reachable (pf : String → String → Option CLIToolInfo) : AgentState → Prop
  | init : Reachable pf initialAgentState
  | route (st : AgentState) (ui : String) (tgt : Option String)
      (chunks : List LChunk) (now : Nat) :
      Reachable pf st → Reachable pf (routeMessage pf st ui tgt chunks now).2
  | confirm (st : AgentState) (ap : Bool) (r : WaitResult) (now : Nat) :
      Reachable pf st → Reachable pf (handleConfirmation pf st ap r now).2
  | clearHist (st : AgentState) : Reachable pf st → Reachable pf (clear_history st)
  | clearTI (st : AgentState) : Reachable pf st → Reachable pf (clear_pending_tool_info st)

theorem lastSeenInv_of_delta (st st' : AgentState)
    (hm : ∃ tail, st'.messages = st.messages ++ tail)
    (hc : st'.last_seen_claude = st.last_seen_claude ∨
      st'.last_seen_claude = (st'.messages.length : Int) - 1)
    (hg : st'.last_seen_gemini = st.last_seen_gemini ∨
      st'.last_seen_gemini = (st'.messages.length : Int) - 1)
    (hinv : lastSeenInv st) : lastSeenInv st' := by
  obtain ⟨tail, ht⟩ := hm
  have hlen : st.messages.length ≤ st'.messages.length := by
    rw [ht]
    simp
  obtain ⟨a1, a2, a3, a4⟩ := hinv
  refine ⟨?_, ?_, ?_, ?_⟩ <;> rcases hc with h | h <;> rcases hg with h2 | h2 <;> omega

set_option maxHeartbeats 1000000 in
/-- Claim C6. Every reachable coordinator state satisfies
`-1 <= last_seen[T] < len(messages)` for both backends (initially `-1`), and a
successful turn targeting `T` - a `route_message` whose stream finishes with a
nonempty response, or an approved `handle_confirmation` that appends a history
message - leaves `last_seen[T] = len(messages) - 1`. -/
theorem last_seen_invariant (pf : String → String → Option CLIToolInfo) :
    (∀ st : AgentState, Reachable pf st → lastSeenInv st) ∧
    (∀ (st : AgentState) (ui t : String) (chunks : List LChunk) (now : Nat) (full : String),
      (streamLoop chunks "").2 = .finished full → ¬ full = "" →
      lastSeen (routeMessage pf st ui (some t) chunks now).2 t =
        ((routeMessage pf st ui (some t) chunks now).2.messages.length : Int) - 1) ∧
    (∀ (st : AgentState) (t c : String) (r : WaitResult) (now : Nat),
      st.pending_confirmation = some (t, c) →
      ¬ (handleConfirmation pf st true r now).2.messages = st.messages →
      lastSeen (handleConfirmation pf st true r now).2 t =
        ((handleConfirmation pf st true r now).2.messages.length : Int) - 1) := by
  refine ⟨?_, ?_, ?_⟩
  · intro st h
    induction h with
    | init => norm_num [lastSeenInv, initialAgentState]
    | route st ui tgt chunks now hr ih =>
      exact lastSeenInv_of_delta st _ (routeMessage_delta pf st ui tgt chunks now).1
        (routeMessage_delta pf st ui tgt chunks now).2.1
        (routeMessage_delta pf st ui tgt chunks now).2.2 ih
    | confirm st ap r now hr ih =>
      exact lastSeenInv_of_delta st _ (handleConfirmation_delta pf st ap r now).1
        (handleConfirmation_delta pf st ap r now).2.1
        (handleConfirmation_delta pf st ap r now).2.2 ih
    | clearHist st hr ih => norm_num [lastSeenInv, clear_history]
    | clearTI st hr ih => exact ih
  · intro st ui t chunks now full hout hf
    have hfb : (full == "") = false := by
      simpa using hf
    rcases hso : streamLoop chunks "" with ⟨evs, oc⟩
    rw [hso] at hout
    replace hout : oc = .finished full := hout
    subst hout
    simp only [routeMessage, hso, hfb, Bool.not_false]
    rw [if_pos trivial]
    rw [lastSeen_setLastSeen_same, setLastSeen_messages]
  · intro st t c r now hpc hne
    by_cases htb : (t == "") = true
    · simp [handleConfirmation, hpc, htb] at hne
    · have htb2 : (t == "") = false := by
        simpa using htb
      rcases hti : st.pending_tool_info with _ | ti <;>
        rcases r with ⟨rc, rec, rso⟩ | ⟨cctx, pr, pec, pso⟩ | s | _
      · simp [handleConfirmation, hpc, hti, htb2] at hne ⊢
        split at hne
        · next hcond =>
          exact absurd (by first | rfl | (split <;> rfl)) hne
        · next hcond =>
          rw [if_neg hcond]
          rw [lastSeen_setLastSeen_same, setLastSeen_messages]
          try (simp only [List.length_append, List.length_cons, List.length_nil]; omega)
      · simp [handleConfirmation, hpc, hti, htb2] at hne
      · simp [handleConfirmation, hpc, hti, htb2] at hne ⊢
        split at hne
        · next hcond =>
          exact absurd (by first | rfl | (split <;> rfl)) hne
        · next hcond =>
          rw [if_neg hcond]
          rw [lastSeen_setLastSeen_same, setLastSeen_messages]
          try (simp only [List.length_append, List.length_cons, List.length_nil]; omega)
      · simp [handleConfirmation, hpc, hti, htb2] at hne ⊢
        split at hne
        · next hcond =>
          exact absurd (by first | rfl | (split <;> rfl)) hne
        · next hcond =>
          rw [if_neg hcond]
          rw [lastSeen_setLastSeen_same, setLastSeen_messages]
          try (simp only [List.length_append, List.length_cons, List.length_nil]; omega)
      · simp [handleConfirmation, hpc, hti, htb2] at hne ⊢
        split at hne
        · next hcond =>
          exact absurd (by first | rfl | (split <;> rfl)) hne
        · next hcond =>
          rw [if_neg hcond]
          rw [lastSeen_setLastSeen_same, setLastSeen_messages]
          try (simp only [List.length_append, List.length_cons, List.length_nil]; omega)
      · simp [handleConfirmation, hpc, hti, htb2] at hne
      · simp [handleConfirmation, hpc, hti, htb2] at hne ⊢
        split at hne
        · next hcond =>
          exact absurd (by first | rfl | (split <;> rfl)) hne
        · next hcond =>
          rw [if_neg hcond]
          rw [lastSeen_setLastSeen_same, setLastSeen_messages]
          try (simp only [List.length_append, List.length_cons, List.length_nil]; omega)
      · simp [handleConfirmation, hpc, hti, htb2] at hne ⊢
        split at hne
        · next hcond =>
          exact absurd (by first | rfl | (split <;> rfl)) hne
        · next hcond =>
          rw [if_neg hcond]
          rw [lastSeen_setLastSeen_same, setLastSeen_messages]
          try (simp only [List.length_append, List.length_cons, List.length_nil]; omega)

/-- Claim C6 witness: the invariant holds at the initial state, and concrete
successful turns through both operations land `last_seen` on the last
message. -/
theorem last_seen_invariant_witness :
    lastSeenInv initialAgentState ∧
    ((streamLoop [⟨"hello", some "stop"⟩] "").2 = .finished "hello" ∧
      ¬ "hello" = "" ∧
      lastSeen (routeMessage (fun _ _ => none) initialAgentState "hi" (some "claude")
          [⟨"hello", some "stop"⟩] 0).2 "claude" =
        ((routeMessage (fun _ _ => none) initialAgentState "hi" (some "claude")
          [⟨"hello", some "stop"⟩] 0).2.messages.length : Int) - 1) ∧
    ((⟨[], -1, -1, some ("claude", "ctx"), some (mkTool "shell" "ls" "" []), []⟩ :
        AgentState).pending_confirmation = some ("claude", "ctx") ∧
      ¬ (handleConfirmation (fun _ _ => none)
          ⟨[], -1, -1, some ("claude", "ctx"), some (mkTool "shell" "ls" "" []), []⟩
          true (.response "hello" none none) 5).2.messages =
        (⟨[], -1, -1, some ("claude", "ctx"), some (mkTool "shell" "ls" "" []), []⟩ :
          AgentState).messages ∧
      lastSeen (handleConfirmation (fun _ _ => none)
          ⟨[], -1, -1, some ("claude", "ctx"), some (mkTool "shell" "ls" "" []), []⟩
          true (.response "hello" none none) 5).2 "claude" =
        ((handleConfirmation (fun _ _ => none)
          ⟨[], -1, -1, some ("claude", "ctx"), some (mkTool "shell" "ls" "" []), []⟩
          true (.response "hello" none none) 5).2.messages.length : Int) - 1) :=
  ⟨(last_seen_invariant (fun _ _ => none)).1 initialAgentState Reachable.init,
   ⟨by decide, by decide,
    (last_seen_invariant (fun _ _ => none)).2.1 initialAgentState "hi" "claude"
      [⟨"hello", some "stop"⟩] 0 "hello" (by decide) (by decide)⟩,
   ⟨rfl, by decide,
    (last_seen_invariant (fun _ _ => none)).2.2
      ⟨[], -1, -1, some ("claude", "ctx"), some (mkTool "shell" "ls" "" []), []⟩
      "claude" "ctx" (.response "hello" none none) 5 rfl (by decide)⟩⟩

/-! ## Claim C1: chained confirmations -/

/-- one chained confirmation hop as reported by `wait_response`: the next
confirmation context and the prior tool's result fields. -/
structure ChainHop where
  context : String
  prior_result : String
  prior_exit_code : Option Int
  prior_shell_output : Option String
deriving Repr, DecidableEq

/-- the session's confirmation chain: each approved confirmation whose
`wait_response` reports another confirmation is followed by the next
`handle_confirmation` on the resulting state, until a terminal result
arrives; all yielded events are concatenated in order. -/
def runChain (pf : String → String → Option CLIToolInfo) (st : AgentState)
    (hops : List ChainHop) (term : WaitResult) (now : Nat) :
    List BEvent × AgentState :=
  match hops with
  | [] => handleConfirmation pf st true term now
  | h :: rest =>
    let r := handleConfirmation pf st true
      (.chained h.context h.prior_result h.prior_exit_code h.prior_shell_output) now
    let r2 := runChain pf r.2 rest term now
    (r.1 ++ r2.1, r2.2)

/-- the ToolInfos emitted along a chain: each hop backfills the currently
pending ToolInfo and hands the next context to the parser. -/
def chainTools (g : String → CLIToolInfo) (ti : CLIToolInfo) :
    List ChainHop → List CLIToolInfo
  | [] => []
  | h :: rest =>
    backfillChained ti h.prior_result h.prior_exit_code h.prior_shell_output ::
      chainTools g (g h.context) rest

/-- the ToolInfo still pending when the chain's terminal result arrives. -/
def chainLastTool (g : String → CLIToolInfo) (ti : CLIToolInfo) :
    List ChainHop → CLIToolInfo
  | [] => ti
  | h :: rest => chainLastTool g (g h.context) rest

theorem handleConfirmation_chained_step (pf : String → String → Option CLIToolInfo)
    (st : AgentState) (t c0 cctx pr : String) (pec : Option Int) (pso : Option String)
    (now : Nat) (ti0 : CLIToolInfo)
    (hpc : st.pending_confirmation = some (t, c0))
    (hti : st.pending_tool_info = some ti0)
    (ht2 : (t == "") = false) :
    handleConfirmation pf st true (.chained cctx pr pec pso) now =
      ([BEvent.cliToolResult (backfillChained ti0 pr pec pso),
        BEvent.assistantText "[Another confirmation required]"],
       { st with pending_confirmation := some (t, cctx),
                 pending_tool_info := pf t cctx,
                 action_contexts := st.action_contexts ++
                   [build_action_context (backfillChained ti0 pr pec pso) t] }) := by
  simp [handleConfirmation, hpc, hti, ht2]

theorem handleConfirmation_terminal_step (pf : String → String → Option CLIToolInfo)
    (st : AgentState) (t c0 rc : String) (rec : Option Int) (rso : Option String)
    (now : Nat) (ti0 : CLIToolInfo)
    (hpc : st.pending_confirmation = some (t, c0))
    (hti : st.pending_tool_info = some ti0)
    (ht2 : (t == "") = false) :
    cliTools (handleConfirmation pf st true (.response rc rec rso) now).1 = [] ∧
    (handleConfirmation pf st true (.response rc rec rso) now).2.messages =
      st.messages ++ [⟨t, flushHistory (scrubContent rc)
        (st.action_contexts ++ [build_action_context (backfillResponse ti0 rec rso) t]),
        now, false⟩] := by
  have hist_ne := flushHistory_append_ne_empty (scrubContent rc)
    (build_action_context (backfillResponse ti0 rec rso) t) st.action_contexts
    (build_action_context_ne_empty _ _)
  constructor
  · simp only [handleConfirmation, hpc, hti, ht2]
    split <;> simp [cliTools]
  · simp [handleConfirmation, hpc, hti, ht2, hist_ne]

set_option maxHeartbeats 1000000 in
theorem runChain_spec (g : String → CLIToolInfo) (t : String) (ht2 : (t == "") = false)
    (rc : String) (rec : Option Int) (rso : Option String) (now : Nat) :
    ∀ (hops : List ChainHop) (st : AgentState) (c0 : String) (ti0 : CLIToolInfo),
      st.pending_confirmation = some (t, c0) →
      st.pending_tool_info = some ti0 →
      (cliTools (runChain (fun _ c => some (g c)) st hops
          (.response rc rec rso) now).1).length = hops.length ∧
      (runChain (fun _ c => some (g c)) st hops (.response rc rec rso) now).2.messages
        = st.messages ++ [⟨t, flushHistory (scrubContent rc)
            (st.action_contexts ++
              (chainTools g ti0 hops).map (fun ti1 => build_action_context ti1 t) ++
              [build_action_context (backfillResponse (chainLastTool g ti0 hops) rec rso) t]),
            now, false⟩] := by
  intro hops
  induction hops with
  | nil =>
    intro st c0 ti0 hpc hti
    have h := handleConfirmation_terminal_step (fun _ c => some (g c)) st t c0 rc rec rso
      now ti0 hpc hti ht2
    refine ⟨?_, ?_⟩
    · simp only [runChain, h.1, List.length_nil]
    · simp only [runChain, h.2, chainTools, chainLastTool, List.map_nil, List.append_nil]
  | cons hop rest ih =>
    intro st c0 ti0 hpc hti
    have hstep := handleConfirmation_chained_step (fun _ c => some (g c)) st t c0
      hop.context hop.prior_result hop.prior_exit_code hop.prior_shell_output now ti0
      hpc hti ht2
    have ihh := ih
      { st with
          pending_confirmation := some (t, hop.context),
          pending_tool_info := some (g hop.context),
          action_contexts := st.action_contexts ++ [build_action_context (backfillChained ti0 hop.prior_result hop.prior_exit_code hop.prior_shell_output) t] }
      hop.context (g hop.context) rfl rfl
    refine ⟨?_, ?_⟩
    · simp only [runChain, hstep]
      simp only [cliTools, List.filterMap_append] at ihh ⊢
      simp only [List.length_append] at ihh ⊢
      simp [ihh.1]
      omega
    · simp only [runChain, hstep]
      rw [ihh.2]
      simp [chainTools, chainLastTool, List.append_assoc]

theorem chainTools_length (g : String → CLIToolInfo) :
    ∀ (hops : List ChainHop) (ti : CLIToolInfo),
      (chainTools g ti hops).length = hops.length
  | [], _ => rfl
  | h :: rest, ti => by
    simp [chainTools, chainTools_length g rest (g h.context)]

set_option maxHeartbeats 1000000 in
/-- Claim C1 (amended). In a chain of `N = hops.length + 1` approved
confirmations within one user turn (each hop's `wait_response` reports the
next confirmation, the last reports a terminal response), the coordinator
emits exactly `N - 1` CLIToolResultEvents - the terminal
`handle_confirmation` yields no tool-result event for the final tool - while
the single message appended to the conversation log when the chain ends
carries all `N` action-context blocks in emission order (the `N - 1` emitted
tools' blocks, then the final pending tool's block). -/
theorem approved_chain_events_and_contexts (g : String → CLIToolInfo)
    (st : AgentState) (t c0 : String) (ti0 : CLIToolInfo) (hops : List ChainHop)
    (rc : String) (rec : Option Int) (rso : Option String) (now : Nat)
    (hpc : st.pending_confirmation = some (t, c0))
    (hti : st.pending_tool_info = some ti0)
    (hac : st.action_contexts = [])
    (ht : ¬ t = "") :
    (cliTools (runChain (fun _ c => some (g c)) st hops
        (.response rc rec rso) now).1).length = hops.length + 1 - 1 ∧
    ((chainTools g ti0 hops).map (fun ti1 => build_action_context ti1 t) ++
        [build_action_context (backfillResponse (chainLastTool g ti0 hops) rec rso) t]).length
      = hops.length + 1 ∧
    (runChain (fun _ c => some (g c)) st hops (.response rc rec rso) now).2.messages
      = st.messages ++ [⟨t,
          flushHistory (scrubContent rc)
            ((chainTools g ti0 hops).map (fun ti1 => build_action_context ti1 t) ++
              [build_action_context (backfillResponse (chainLastTool g ti0 hops) rec rso) t]),
          now, false⟩] := by
  have ht2 : (t == "") = false := by
    simpa using ht
  have h := runChain_spec g t ht2 rc rec rso now hops st c0 ti0 hpc hti
  refine ⟨?_, ?_, ?_⟩
  · rw [h.1]
    omega
  · simp [chainTools_length]
  · rw [h.2, hac]
    simp

/-- a coordinator state holding an approved shell confirmation, used to run a
concrete two-confirmation chain. -/
def chainExState : AgentState :=
  ⟨[], -1, -1, some ("claude", "ctx"), some (mkTool "shell" "ls" "" []), []⟩

/-- the middle hop of the concrete chain: a second confirmation context plus
the first tool's result fields. -/
def chainExHop : ChainHop := ⟨"ctx2", "out1", some 0, some "o"⟩

/-- the concrete per-context parser of the example chain. -/
def chainExParser (c : String) : CLIToolInfo := mkTool "shell" c "" []

/-- Claim C1 witness: a concrete chain of two approved confirmations emits
one tool-result event and appends one message holding both action-context
blocks. -/
theorem approved_chain_events_and_contexts_witness :
    chainExState.pending_confirmation = some ("claude", "ctx") ∧
    chainExState.pending_tool_info = some (mkTool "shell" "ls" "" []) ∧
    chainExState.action_contexts = [] ∧
    ¬ "claude" = "" ∧
    ((cliTools (runChain (fun _ c => some (chainExParser c)) chainExState [chainExHop]
        (.response "done" (some 0) none) 7).1).length = 1 + 1 - 1 ∧
     ((chainTools chainExParser (mkTool "shell" "ls" "" []) [chainExHop]).map
        (fun ti1 => build_action_context ti1 "claude") ++
      [build_action_context (backfillResponse
         (chainLastTool chainExParser (mkTool "shell" "ls" "" []) [chainExHop])
         (some 0) none) "claude"]).length = 1 + 1 ∧
     (runChain (fun _ c => some (chainExParser c)) chainExState [chainExHop]
        (.response "done" (some 0) none) 7).2.messages =
       chainExState.messages ++ [⟨"claude",
         flushHistory (scrubContent "done") ((chainTools chainExParser (mkTool "shell" "ls" "" []) [chainExHop]).map
        (fun ti1 => build_action_context ti1 "claude") ++
      [build_action_context (backfillResponse
         (chainLastTool chainExParser (mkTool "shell" "ls" "" []) [chainExHop])
         (some 0) none) "claude"]), 7, false⟩]) :=
  ⟨rfl, rfl, rfl, by decide,
   approved_chain_events_and_contexts chainExParser chainExState "claude" "ctx"
     (mkTool "shell" "ls" "" []) [chainExHop] "done" (some 0) none 7 rfl rfl rfl (by decide)⟩

/-- Claim C1 counterexample: two approved confirmations (one chained hop plus
the terminal response) emit exactly one CLIToolResultEvent, not two - the
terminal `handle_confirmation` yields no tool-result event for the final
approved tool. -/
theorem two_confirmations_one_tool_event :
    (cliTools (runChain (fun _ c => some (mkTool "shell" c "" []))
        ⟨[], -1, -1, some ("claude", "ctx"), some (mkTool "shell" "ls" "" []), []⟩
        [⟨"ctx2", "out1", some 0, some "o"⟩] (.response "done" (some 0) none) 7).1).length
      = 1 := by decide

end VibeSpec
